import Mathlib

/-!
Shallow embedding of the STUDIO-CAOTRANGAI repository, covering:

* the layer-composer state hook
  (`src/src/components/LayerComposer/useLayerComposerState.ts`): layers,
  snapshot-list undo history, alignment and distribution actions;
* the localStorage-backed credit bookkeeping (`src/lib/credits.ts` and the
  older module preserved as `src/unnamed/part_007`);
* the serverless multipart proxy (`src/netlify/functions/generate.ts`).

JavaScript numbers are modelled as rationals, `localStorage` as a partial
map from strings to strings, byte buffers as lists of characters (one
character per byte; UTF-8 decoding of header text is modelled as `String.mk`),
and React `useState` state as explicit record-passing.
-/

namespace Studio

/-- The layer record from `LayerComposer.types` as used by
`useLayerComposerState.ts` (image and text layers; optional fields are the
ones only some layer kinds carry). -/
structure Layer where
  id : String
  type : String
  url : Option String := none
  text : Option String := none
  fontFamily : Option String := none
  fontSize : Option ℚ := none
  fontWeight : Option String := none
  fontStyle : Option String := none
  color : Option String := none
  textAlign : Option String := none
  lineHeight : Option ℚ := none
  x : ℚ
  y : ℚ
  width : ℚ
  height : ℚ
  rotation : ℚ
  opacity : ℚ
  blendMode : String := "source-over"
  isVisible : Bool := true
  isLocked : Bool := false
deriving DecidableEq, Repr

/-- `Partial<Layer>`: every field optional; spreading `{...l, ...props}`
overrides exactly the present fields. -/
structure LayerPatch where
  id : Option String := none
  type : Option String := none
  url : Option (Option String) := none
  text : Option (Option String) := none
  fontFamily : Option (Option String) := none
  fontSize : Option (Option ℚ) := none
  fontWeight : Option (Option String) := none
  fontStyle : Option (Option String) := none
  color : Option (Option String) := none
  textAlign : Option (Option String) := none
  lineHeight : Option (Option ℚ) := none
  x : Option ℚ := none
  y : Option ℚ := none
  width : Option ℚ := none
  height : Option ℚ := none
  rotation : Option ℚ := none
  opacity : Option ℚ := none
  blendMode : Option String := none
  isVisible : Option Bool := none
  isLocked : Option Bool := none
deriving DecidableEq, Repr

/-- JS object spread `{...l, ...p}` for a layer and a patch. -/
def applyPatch (l : Layer) (p : LayerPatch) : Layer where
  id := p.id.getD l.id
  type := p.type.getD l.type
  url := p.url.getD l.url
  text := p.text.getD l.text
  fontFamily := p.fontFamily.getD l.fontFamily
  fontSize := p.fontSize.getD l.fontSize
  fontWeight := p.fontWeight.getD l.fontWeight
  fontStyle := p.fontStyle.getD l.fontStyle
  color := p.color.getD l.color
  textAlign := p.textAlign.getD l.textAlign
  lineHeight := p.lineHeight.getD l.lineHeight
  x := p.x.getD l.x
  y := p.y.getD l.y
  width := p.width.getD l.width
  height := p.height.getD l.height
  rotation := p.rotation.getD l.rotation
  opacity := p.opacity.getD l.opacity
  blendMode := p.blendMode.getD l.blendMode
  isVisible := p.isVisible.getD l.isVisible
  isLocked := p.isLocked.getD l.isLocked

/-- A patch touching only `x` (the `props: { x: ... }` objects built by the
alignment and horizontal-distribution actions). -/
def patchX (q : ℚ) : LayerPatch := { x := some q }

/-- A patch touching only `y`. -/
def patchY (q : ℚ) : LayerPatch := { y := some q }

/-- The state managed by `useLayerComposerState` that the layer operations
read and write: the layers array, the snapshot history, the history index
and the current selection, plus the canvas dimensions from
`canvasSettings`. -/
structure ComposerState where
  layers : List Layer
  history : List (List Layer)
  historyIndex : Int
  selectedLayerIds : List String
  canvasWidth : ℚ := 1024
  canvasHeight : ℚ := 1024
deriving Repr

/-- Initial hook state: `useState<Layer[]>([])`, `useState<Layer[][]>([])`,
`useState(-1)`, `useState<string[]>([])`, canvas 1024×1024. -/
def initialComposerState : ComposerState :=
  { layers := [], history := [], historyIndex := -1, selectedLayerIds := [] }

/-- `selectedLayers = layers.filter(l => selectedLayerIds.includes(l.id))`. -/
def selLayers (s : ComposerState) : List Layer :=
  s.layers.filter (fun l => s.selectedLayerIds.contains l.id)

/-- `canUndo = historyIndex > 0`. -/
def canUndo (s : ComposerState) : Bool := 0 < s.historyIndex

/-- `canRedo = historyIndex < history.length - 1`. -/
def canRedo (s : ComposerState) : Bool :=
  s.historyIndex < (s.history.length : Int) - 1

/-- `pushHistory(newLayers)`: slice the history at `historyIndex + 1`,
append the new snapshot, and point the index at it. -/
def pushHistory (s : ComposerState) (newLayers : List Layer) : ComposerState :=
  let newHistory := s.history.take (s.historyIndex + 1).toNat ++ [newLayers]
  { s with history := newHistory, historyIndex := (newHistory.length : Int) - 1 }

/-- Common shape of every history-recording operation:
`setLayers(nl); pushHistory(nl); setSelectedLayerIds(sel)`. -/
def recordSnapshot (s : ComposerState) (nl : List Layer) (sel : List String) :
    ComposerState :=
  pushHistory { s with layers := nl, selectedLayerIds := sel } nl

/-- `handleUndo`. -/
def handleUndoS (s : ComposerState) : ComposerState :=
  if canUndo s then
    let newIndex := s.historyIndex - 1
    { s with historyIndex := newIndex,
             layers := s.history.getD newIndex.toNat [],
             selectedLayerIds := [] }
  else s

/-- `handleRedo`. -/
def handleRedoS (s : ComposerState) : ComposerState :=
  if canRedo s then
    let newIndex := s.historyIndex + 1
    { s with historyIndex := newIndex,
             layers := s.history.getD newIndex.toNat [],
             selectedLayerIds := [] }
  else s

/-- `addLayer(layer)`: attach a fresh id (nanoid, passed in explicitly),
append, record, select the new layer. -/
def addLayerS (s : ComposerState) (layer : Layer) (newId : String) :
    ComposerState :=
  let newLayer := { layer with id := newId }
  recordSnapshot s (s.layers ++ [newLayer]) [newLayer.id]

/-- `handleLayerDelete(id)`. -/
def handleLayerDeleteS (s : ComposerState) (id : String) : ComposerState :=
  recordSnapshot s (s.layers.filter (fun l => l.id ≠ id))
    (s.selectedLayerIds.filter (fun pid => pid ≠ id))

/-- `deleteSelectedLayers` (early return when nothing is selected). -/
def deleteSelectedLayersS (s : ComposerState) : ComposerState :=
  if s.selectedLayerIds.isEmpty then s
  else
    recordSnapshot s
      (s.layers.filter (fun l => ¬ s.selectedLayerIds.contains l.id)) []

/-- `handleLayersReorder(reorderedLayers)` (selection untouched). -/
def handleLayersReorderS (s : ComposerState) (reordered : List Layer) :
    ComposerState :=
  recordSnapshot s reordered s.selectedLayerIds

/-- `duplicateLayer(id)`: throws when the id is unknown (state unchanged);
otherwise appends an offset clone with a fresh id. -/
def duplicateLayerS (s : ComposerState) (id newId : String) : ComposerState :=
  match s.layers.find? (fun l => l.id = id) with
  | none => s
  | some layer =>
      let newLayer := { layer with id := newId, x := layer.x + 20, y := layer.y + 20 }
      recordSnapshot s (s.layers ++ [newLayer]) [newLayer.id]

/-- `array.splice(idx, 0, a)` on a list. -/
def spliceInsert (idx : Nat) (a : α) (l : List α) : List α :=
  l.take idx ++ a :: l.drop idx

/-- `duplicateSelectedLayers` with an explicit fresh-id supply for nanoid. -/
def duplicateSelectedLayersS (s : ComposerState) (supply : Nat → String) :
    ComposerState :=
  match selLayers s with
  | [] => s
  | first :: _ =>
      let topMostSelectedIndex := s.layers.findIdx (fun l => l.id = first.id)
      let layersToDuplicate := (selLayers s).reverse
      let step := fun (acc : List Layer × List String) (p : Nat × Layer) =>
        let newLayer := { p.2 with id := supply p.1, x := p.2.x + 20, y := p.2.y + 20 }
        (spliceInsert topMostSelectedIndex newLayer acc.1, acc.2 ++ [supply p.1])
      let r := layersToDuplicate.enum.foldl step (s.layers, [])
      recordSnapshot s r.1 r.2

/-- `handleDuplicateForDrag`: clones appended on top, no history push. -/
def handleDuplicateForDragS (s : ComposerState) (supply : Nat → String) :
    ComposerState :=
  if (selLayers s).isEmpty then s
  else
    let clones := (selLayers s).enum.map
      (fun p => { p.2 with id := supply p.1 })
    { s with layers := s.layers ++ clones,
             selectedLayerIds := clones.map (fun c => c.id) }

/-- `updateLayers(updates, isFinalChange)`. -/
def updateLayersS (s : ComposerState) (updates : List (String × LayerPatch))
    (isFinalChange : Bool) : ComposerState :=
  let newLayers := s.layers.map (fun l =>
    match updates.find? (fun u => u.1 = l.id) with
    | some u => applyPatch l u.2
    | none => l)
  if isFinalChange then recordSnapshot s newLayers s.selectedLayerIds
  else { s with layers := newLayers }

/-- `handleLayerUpdate(id, newProps, isFinalChange)`. -/
def handleLayerUpdateS (s : ComposerState) (id : String) (p : LayerPatch)
    (isFinalChange : Bool) : ComposerState :=
  updateLayersS s [(id, p)] isFinalChange

/-- `handleResizeSelectedLayers(dimension, newValue)`; `dim = true` means
`'width'`, `false` means `'height'`. -/
def handleResizeSelectedLayersS (s : ComposerState) (dim : Bool) (v : ℚ) :
    ComposerState :=
  if (selLayers s).isEmpty then s
  else
    updateLayersS s
      ((selLayers s).map (fun l =>
        (l.id, if dim then { width := some v } else { height := some v })))
      true

/-- `handleCreateNew` (selection untouched in the source). -/
def handleCreateNewS (s : ComposerState) : ComposerState :=
  { s with layers := [], history := [], historyIndex := -1 }

/-- `handleCloseAndReset`. -/
def handleCloseAndResetS (s : ComposerState) : ComposerState :=
  { s with layers := [], history := [], historyIndex := -1 }

/-- React `setLayers` (exposed raw by the hook). -/
def setLayersS (s : ComposerState) (ls : List Layer) : ComposerState :=
  { s with layers := ls }

/-- React `setSelectedLayerIds` (exposed raw by the hook). -/
def setSelectedLayerIdsS (s : ComposerState) (ids : List String) : ComposerState :=
  { s with selectedLayerIds := ids }

/-- `Math.min(...values)` for a nonempty list (`0` on the empty list,
which no caller reaches). -/
def qMin : List ℚ → ℚ
  | [] => 0
  | v :: vs => vs.foldl min v

/-- `Math.max(...values)` for a nonempty list. -/
def qMax : List ℚ → ℚ
  | [] => 0
  | v :: vs => vs.foldl max v

/-- A bounding rectangle. -/
structure Rect where
  x : ℚ
  y : ℚ
  width : ℚ
  height : ℚ
deriving DecidableEq, Repr

/-- Modelled from the spec: `getBoundingBoxForLayers` is declared in
`LayerComposer.types.ts`, which is not among the provided sources; the spec
describes it only as "bounding-box math for align/distribute operations".
Modelled as the axis-aligned bounding box of the layers' rectangles,
`null` on an empty selection. -/
def getBoundingBoxForLayers : List Layer → Option Rect
  | [] => none
  | ls =>
      let minX := qMin (ls.map (fun l => l.x))
      let minY := qMin (ls.map (fun l => l.y))
      let maxX := qMax (ls.map (fun l => l.x + l.width))
      let maxY := qMax (ls.map (fun l => l.y + l.height))
      some { x := minX, y := minY, width := maxX - minX, height := maxY - minY }

/-- `selectionBoundingBox = getBoundingBoxForLayers(selectedLayers)`. -/
def selectionBoundingBox (s : ComposerState) : Option Rect :=
  getBoundingBoxForLayers (selLayers s)

/-- `[...layers].sort((a, b) => a.x - b.x)`: JavaScript `Array.sort` is a
stable sort driven by the comparator, i.e. a stable sort by ascending `x`. -/
def sortByX (ls : List Layer) : List Layer :=
  ls.insertionSort (fun a b => a.x ≤ b.x)

/-- `[...layers].sort((a, b) => a.y - b.y)`. -/
def sortByY (ls : List Layer) : List Layer :=
  ls.insertionSort (fun a b => a.y ≤ b.y)

instance instIsTotalLayerX : IsTotal Layer (fun a b => a.x ≤ b.x) :=
  ⟨fun a b => le_total a.x b.x⟩

instance instIsTransLayerX : IsTrans Layer (fun a b => a.x ≤ b.x) :=
  ⟨fun _ _ _ hab hbc => le_trans hab hbc⟩

instance instIsTotalLayerY : IsTotal Layer (fun a b => a.y ≤ b.y) :=
  ⟨fun a b => le_total a.y b.y⟩

instance instIsTransLayerY : IsTrans Layer (fun a b => a.y ≤ b.y) :=
  ⟨fun _ _ _ hab hbc => le_trans hab hbc⟩

/-- A fallback layer for (unreachable) head/last accesses on empty lists. -/
def dummyLayer : Layer :=
  { id := "", type := "", x := 0, y := 0, width := 0, height := 0,
    rotation := 0, opacity := 100 }

/-- The `MultiLayerAction` union; `duplicateA` carries the nanoid supply its
delegate consumes. -/
inductive MultiLayerAction where
  | alignLeft
  | alignCenter
  | alignRight
  | alignTop
  | alignMiddle
  | alignBottom
  | distributeHorizontal
  | distributeVertical
  | mergeA
  | deleteA
  | duplicateA (supply : Nat → String)
  | exportA

/-- The `updates` array computed by the `switch` in `handleMultiLayerAction`
for the alignment and distribution cases. -/
def mlaUpdates (s : ComposerState) : MultiLayerAction → List (String × LayerPatch)
  | .alignLeft =>
      let minX := qMin ((selLayers s).map (fun l => l.x))
      (selLayers s).map (fun l => (l.id, patchX minX))
  | .alignCenter =>
      match selectionBoundingBox s with
      | some bb =>
          let centerX := bb.x + bb.width / 2
          (selLayers s).map (fun l => (l.id, patchX (centerX - l.width / 2)))
      | none => []
  | .alignRight =>
      match selectionBoundingBox s with
      | some bb =>
          let maxX := bb.x + bb.width
          (selLayers s).map (fun l => (l.id, patchX (maxX - l.width)))
      | none => []
  | .alignTop =>
      let minY := qMin ((selLayers s).map (fun l => l.y))
      (selLayers s).map (fun l => (l.id, patchY minY))
  | .alignMiddle =>
      match selectionBoundingBox s with
      | some bb =>
          let centerY := bb.y + bb.height / 2
          (selLayers s).map (fun l => (l.id, patchY (centerY - l.height / 2)))
      | none => []
  | .alignBottom =>
      match selectionBoundingBox s with
      | some bb =>
          let maxY := bb.y + bb.height
          (selLayers s).map (fun l => (l.id, patchY (maxY - l.height)))
      | none => []
  | .distributeHorizontal =>
      let sortedH := sortByX (selLayers s)
      if 2 < sortedH.length then
        let totalWidth := (sortedH.getLastD dummyLayer).x - (sortedH.headD dummyLayer).x
        let gap := totalWidth / ((sortedH.length : ℚ) - 1)
        sortedH.enum.map (fun p =>
          (p.2.id, patchX ((sortedH.headD dummyLayer).x + gap * (p.1 : ℚ))))
      else []
  | .distributeVertical =>
      let sortedV := sortByY (selLayers s)
      if 2 < sortedV.length then
        let totalHeight := (sortedV.getLastD dummyLayer).y - (sortedV.headD dummyLayer).y
        let gap := totalHeight / ((sortedV.length : ℚ) - 1)
        sortedV.enum.map (fun p =>
          (p.2.id, patchY ((sortedV.headD dummyLayer).y + gap * (p.1 : ℚ))))
      else []
  | _ => []

/-- `handleMultiLayerAction(action)`: guard on fewer than two selected
layers, delegate merge/delete/duplicate/export, otherwise apply the
computed updates as a final change (merge and export only touch the DOM or
show a toast). -/
def handleMultiLayerActionS (s : ComposerState) (a : MultiLayerAction) :
    ComposerState :=
  if (selLayers s).length < 2 then s
  else
    match a with
    | .mergeA => s
    | .deleteA => deleteSelectedLayersS s
    | .duplicateA supply => duplicateSelectedLayersS s supply
    | .exportA => s
    | a =>
        let updates := mlaUpdates s a
        if updates.isEmpty then s else updateLayersS s updates true

/-- The width/height computation in `handleAddImage`'s `img.onload`: clamp
the natural size to half the canvas preserving the aspect ratio. -/
def handleAddImageSize (maxW maxH natW natH : ℚ) : ℚ × ℚ :=
  if natW > maxW ∨ natH > maxH then
    let ratio := natW / natH
    let w1 := if natW > maxW then maxW else natW
    let h1 := if natW > maxW then maxW / ratio else natH
    let h2 := if h1 > maxH then maxH else h1
    let w2 := if h1 > maxH then maxH * ratio else w1
    (w2, h2)
  else (natW, natH)

/-- The image layer built by `handleAddImage` once the image has loaded,
centred on the canvas. -/
def imageLayerFor (canvasW canvasH natW natH : ℚ) (url : String) : Layer :=
  let wh := handleAddImageSize (canvasW * (1/2)) (canvasH * (1/2)) natW natH
  { id := "", type := "image", url := some url,
    x := (canvasW - wh.1) / 2, y := (canvasH - wh.2) / 2,
    width := wh.1, height := wh.2, rotation := 0, opacity := 100,
    blendMode := "source-over", isVisible := true, isLocked := false }

/-- `handleAddImage(url)` after the image loads with the given natural
dimensions: build the clamped, centred layer and `addLayer` it. -/
def handleAddImageS (s : ComposerState) (url : String) (natW natH : ℚ)
    (newId : String) : ComposerState :=
  addLayerS s (imageLayerFor s.canvasWidth s.canvasHeight natW natH url) newId

/-- `handleAddText`. -/
def handleAddTextS (s : ComposerState) (newId : String) : ComposerState :=
  addLayerS s
    { id := "", type := "text", text := some "Text Layer",
      fontFamily := some "Be Vietnam Pro", fontSize := some 40,
      fontWeight := some "400", fontStyle := some "normal",
      color := some "#ffffff", textAlign := some "center",
      lineHeight := some (6/5),
      x := s.canvasWidth / 2 - 100, y := s.canvasHeight / 2 - 25,
      width := 200, height := 50, rotation := 0, opacity := 100 }
    newId

/-! Part: localStorage-backed credit bookkeeping

`localStorage` is a partial map from string keys to string values. The code
runs in the browser branch (`typeof window !== "undefined"`). `parseInt(s,
10)` and `String(n)` are modelled by `parseIntJs` and `intToStringJs`. -/

/-- A `localStorage` snapshot. -/
def Store := String → Option String

/-- `localStorage.setItem`. -/
def setItem (st : Store) (k v : String) : Store :=
  fun k2 => if k2 = k then some v else st k2

/-- The character for a decimal digit value. -/
def digitChar (d : Nat) : Char := Char.ofNat (48 + d)

/-- The decimal digits of a natural number, least significant first. -/
def natDigitsRev (n : Nat) : List Char :=
  if h : n < 10 then [digitChar n]
  else digitChar (n % 10) :: natDigitsRev (n / 10)
decreasing_by exact Nat.div_lt_self (by omega) (by omega)

/-- JavaScript `String(n)` for a natural number. -/
def natToStringJs (n : Nat) : String := ⟨(natDigitsRev n).reverse⟩

/-- JavaScript `String(i)` for an integer. -/
def intToStringJs (i : Int) : String :=
  if i < 0 then "-" ++ natToStringJs (-i).toNat else natToStringJs i.toNat

/-- Value of a run of decimal digit characters. -/
def digitsToNat (ds : List Char) : Nat :=
  ds.foldl (fun a c => 10 * a + (c.toNat - 48)) 0

/-- The maximal leading digit run, `NaN` (`none`) when it is empty. -/
def parseDigitRun (cs : List Char) : Option Nat :=
  let ds := cs.takeWhile Char.isDigit
  if ds.isEmpty then none else some (digitsToNat ds)

/-- JavaScript `parseInt(s, 10)`: skip leading whitespace, optional sign,
then the maximal digit prefix; `NaN` is `none`. -/
def parseIntJs (s : String) : Option Int :=
  match s.data.dropWhile Char.isWhitespace with
  | [] => none
  | c :: rest =>
      if c = '-' then (parseDigitRun rest).map (fun n => -(n : Int))
      else if c = '+' then (parseDigitRun rest).map (fun n => (n : Int))
      else (parseDigitRun (c :: rest)).map (fun n => (n : Int))

/-- The per-user current-credits key. -/
def creditsKey (u : String) : String := "caotrang_credits_" ++ u

/-- The per-user base-credits key of the newer module. -/
def baseCreditsKey (u : String) : String := "caotrang_base_credits_" ++ u

namespace CreditsLib

/-- `getUserRole` from `src/lib/credits.ts` (the username argument is
ignored by the source). -/
def getUserRole (st : Store) : String :=
  if st "caotrang_role" = some "vip" then "vip" else "normal"

/-- `getMaxCredits` from `src/lib/credits.ts`: a truthy, numeric
`caotrang_base_credits_<u>` entry wins, otherwise 20 for vip and 5 for
normal. -/
def getMaxCredits (st : Store) (u : String) : Int :=
  let fallback : Int := if getUserRole st = "vip" then 20 else 5
  match st (baseCreditsKey u) with
  | some s =>
      if s = "" then fallback
      else
        match parseIntJs s with
        | some v => v
        | none => fallback
  | none => fallback

/-- `getUserCredits` from `src/lib/credits.ts`: return a truthy, numeric
stored value; otherwise initialize the key with `getMaxCredits` and return
that. Returns the value and the possibly-updated store. -/
def getUserCredits (st : Store) (u : String) : Int × Store :=
  let init : Int × Store :=
    let i := getMaxCredits st u
    (i, setItem st (creditsKey u) (intToStringJs i))
  match st (creditsKey u) with
  | some s =>
      if s = "" then init
      else
        match parseIntJs s with
        | some v => (v, st)
        | none => init
  | none => init

/-- `decreaseUserCredits` from `src/lib/credits.ts`. -/
def decreaseUserCredits (st : Store) (u : String) : Int × Store :=
  let c := getUserCredits st u
  let next := max (c.1 - 1) 0
  (next, setItem c.2 (creditsKey u) (intToStringJs next))

/-- `resetUserCredits` from `src/lib/credits.ts` (optional value argument;
falls back to `getMaxCredits`). -/
def resetUserCredits (st : Store) (u : String) (value : Option Int) : Store :=
  let rv := match value with
    | some v => v
    | none => getMaxCredits st u
  setItem st (creditsKey u) (intToStringJs rv)

end CreditsLib

namespace CreditsOld

/-- `getUserCredits` from the older credit module (`src/unnamed/part_007`):
a falsy or non-numeric stored value is reset to the constant
`BASE_CREDITS = 5`. -/
def getUserCredits (st : Store) (u : String) : Int × Store :=
  match st (creditsKey u) with
  | none => (5, setItem st (creditsKey u) (intToStringJs 5))
  | some s =>
      if s = "" then (5, setItem st (creditsKey u) (intToStringJs 5))
      else
        match parseIntJs s with
        | none => (5, setItem st (creditsKey u) (intToStringJs 5))
        | some v => (v, st)

/-- `decreaseUserCredits` from `src/unnamed/part_007`. -/
def decreaseUserCredits (st : Store) (u : String) : Int × Store :=
  let c := getUserCredits st u
  let next := max (c.1 - 1) 0
  (next, setItem c.2 (creditsKey u) (intToStringJs next))

/-- `resetUserCredits` from `src/unnamed/part_007`
(`value = BASE_CREDITS` default parameter). -/
def resetUserCredits (st : Store) (u : String) (value : Option Int) : Store :=
  setItem st (creditsKey u) (intToStringJs (value.getD 5))

end CreditsOld

/-! Part: Serverless multipart proxy (`src/netlify/functions/generate.ts`)

Buffers are modelled as lists of characters (one character per byte).
`Buffer.from(bodyBase64, "base64")` composed with the handler's encoding of
`event.body` is the identity on the decoded request body, so the handler is
modelled directly on the decoded bytes. `partBuffer.toString("utf-8")` is
modelled as `String.mk`. -/

/-- The `ParsedBody` record. -/
structure ParsedBody where
  mode : String
  name : String
  job : String
  phone : String
  outfit : String
  portraitStyle : String
  faceBuffer : Option (List Char)
  faceMimeType : Option String
deriving DecidableEq, Repr

/-- The defaults `parseMultipart` starts from. -/
def defaultParsedBody : ParsedBody :=
  { mode := "nameplate", name := "", job := "", phone := "", outfit := "",
    portraitStyle := "", faceBuffer := none, faceMimeType := none }

/-- First index at which `pat` occurs in `hay`. -/
def firstOcc : List Char → List Char → Option Nat
  | hay, pat =>
      if pat.isPrefixOf hay then some 0
      else
        match hay with
        | [] => none
        | _ :: t => (firstOcc t pat).map (· + 1)

/-- `buffer.indexOf(pat, start)` (`none` for `-1`). -/
def bufIndexOf (hay pat : List Char) (start : Nat) : Option Nat :=
  (firstOcc (hay.drop start) pat).map (· + start)

/-- `buffer.slice(a, b)` for `a ≤ b ≤ length` (clamping like JS). -/
def bufSlice (l : List Char) (a b : Nat) : List Char :=
  (l.take b).drop a

/-- Case-insensitive prefix test against a lowercase pattern. -/
def ciStarts (pat cs : List Char) : Bool :=
  pat.isPrefixOf (cs.map Char.toLower)

/-- The value part of the regex `boundary=(?:"([^"]+)"|([^;]+))` once
`boundary=` has matched: a quoted nonempty run of non-quote characters, or
else (also when the quoted branch fails) a nonempty run of non-semicolon
characters. -/
def matchBoundaryVal (cs : List Char) : Option (List Char) :=
  let unquoted :=
    let ds := cs.takeWhile (fun c => c ≠ ';')
    if ds.isEmpty then none else some ds
  match cs with
  | '"' :: rest =>
      let ds := rest.takeWhile (fun c => c ≠ '"')
      if ds.isEmpty then unquoted
      else if (rest.drop ds.length).isEmpty then unquoted
      else some ds
  | _ => unquoted

/-- `contentType.match(/boundary=(?:"([^"]+)"|([^;]+))/i)`: scan for the
first position where the whole pattern matches. -/
def findBoundary : List Char → Option (List Char)
  | [] => none
  | c :: rest =>
      if ciStarts "boundary=".data (c :: rest) then
        match matchBoundaryVal ((c :: rest).drop 9) with
        | some b => some b
        | none => findBoundary rest
      else findBoundary rest

/-- `headerText.match(/name="([^"]+)"/)`: first position where `name="` is
followed by a nonempty run of non-quote characters and a closing quote. -/
def findNameAttr : List Char → Option String
  | [] => none
  | c :: rest =>
      if ("name=\"".data).isPrefixOf (c :: rest) then
        let after := (c :: rest).drop 6
        let ds := after.takeWhile (fun c2 => c2 ≠ '"')
        if ds.isEmpty then findNameAttr rest
        else if (after.drop ds.length).isEmpty then findNameAttr rest
        else some ⟨ds⟩
      else findNameAttr rest

/-- The capture of `/Content-Type:\s*([^\r\n]+)/i` after `content-type:`
has matched: greedy whitespace, then a nonempty run free of CR and LF,
backtracking into trailing non-CRLF whitespace when the rest is empty. -/
def ctValueAt (after : List Char) : Option String :=
  let ws := after.takeWhile Char.isWhitespace
  let rest := after.drop ws.length
  if rest.isEmpty then
    match ws.reverse.dropWhile (fun c => c = '\r' ∨ c = '\n') with
    | [] => none
    | c :: _ => some ⟨[c]⟩
  else some ⟨rest.takeWhile (fun c => ¬ (c = '\r' ∨ c = '\n'))⟩

/-- `headerText.match(/Content-Type:\s*([^\r\n]+)/i)`. -/
def findCTAttr : List Char → Option String
  | [] => none
  | c :: rest =>
      if ciStarts "content-type:".data (c :: rest) then
        match ctValueAt ((c :: rest).drop 13) with
        | some v => some v
        | none => findCTAttr rest
      else findCTAttr rest

/-- `\r\n\r\n`. -/
def doubleCRLF : List Char := ['\r', '\n', '\r', '\n']

/-- The body of one loop iteration once a part buffer has been cut out:
split headers from content at the first `\r\n\r\n` and store the field. -/
def accumPart (r : ParsedBody) (partBuffer : List Char) : ParsedBody :=
  match bufIndexOf partBuffer doubleCRLF 0 with
  | none => r
  | some headerEndIndex =>
      let headerChars := partBuffer.take headerEndIndex
      let content := partBuffer.drop (headerEndIndex + 4)
      let fieldName := (findNameAttr headerChars).getD ""
      if fieldName = "face" then
        { r with faceBuffer := some content,
                 faceMimeType :=
                   some ((findCTAttr headerChars).getD "image/jpeg").trim }
      else if fieldName = "mode" then { r with mode := ⟨content⟩ }
      else if fieldName = "name" then { r with name := ⟨content⟩ }
      else if fieldName = "job" then { r with job := ⟨content⟩ }
      else if fieldName = "phone" then { r with phone := ⟨content⟩ }
      else if fieldName = "outfit" then { r with outfit := ⟨content⟩ }
      else if fieldName = "portraitStyle" then { r with portraitStyle := ⟨content⟩ }
      else r

/-- The `while (true)` scan over boundary occurrences. `lastIndex` strictly
increases below `body.length` on every iteration, so `body.length + 1` fuel
is never exhausted. -/
def parseLoop (body bb : List Char) : Nat → ParsedBody → Nat → ParsedBody
  | _, r, 0 => r
  | lastIndex, r, fuel + 1 =>
      match bufIndexOf body bb lastIndex with
      | none => r
      | some startIndex =>
          let afterBoundary := startIndex + bb.length
          match bufIndexOf body bb (afterBoundary + 2) with
          | none => r
          | some nextBoundaryIndex =>
              let partBuffer := bufSlice body (afterBoundary + 2) (nextBoundaryIndex - 2)
              parseLoop body bb nextBoundaryIndex (accumPart r partBuffer) fuel

/-- `parseMultipart(bodyBase64, contentType)` on the decoded body bytes. -/
def parseMultipart (body : List Char) (contentType : String) : ParsedBody :=
  match findBoundary contentType.data with
  | none => defaultParsedBody
  | some b =>
      parseLoop body ('-' :: '-' :: b) 0 defaultParsedBody (body.length + 1)

/-- The same boundary scan, but collecting every `(fieldName, content)`
pair it visits: the parts of the multipart body as the code delimits them. -/
def partsLoop (body bb : List Char) : Nat → Nat → List (String × List Char)
  | _, 0 => []
  | lastIndex, fuel + 1 =>
      match bufIndexOf body bb lastIndex with
      | none => []
      | some startIndex =>
          let afterBoundary := startIndex + bb.length
          match bufIndexOf body bb (afterBoundary + 2) with
          | none => []
          | some nextBoundaryIndex =>
              let partBuffer := bufSlice body (afterBoundary + 2) (nextBoundaryIndex - 2)
              let here :=
                match bufIndexOf partBuffer doubleCRLF 0 with
                | none => []
                | some headerEndIndex =>
                    [((findNameAttr (partBuffer.take headerEndIndex)).getD "",
                      partBuffer.drop (headerEndIndex + 4))]
              here ++ partsLoop body bb nextBoundaryIndex fuel

/-- The named parts of a request body, as delimited by the code's scan. -/
def extractedParts (body : List Char) (contentType : String) :
    List (String × List Char) :=
  match findBoundary contentType.data with
  | none => []
  | some b => partsLoop body ('-' :: '-' :: b) 0 (body.length + 1)

/-- `inlineData` of a Gemini response part. -/
structure InlineData where
  data : String
deriving DecidableEq, Repr

/-- A part of a Gemini response candidate. -/
structure GPart where
  inlineData : Option InlineData
deriving DecidableEq, Repr

/-- `content` of a candidate. -/
structure GContent where
  parts : List GPart
deriving DecidableEq, Repr

/-- A response candidate. -/
structure GCandidate where
  content : Option GContent
deriving DecidableEq, Repr

/-- A Gemini `generateContent` response. -/
structure GResponse where
  candidates : List GCandidate
deriving DecidableEq, Repr

/-- `response?.candidates?.[0]?.content?.parts ?? []`. -/
def respParts (resp : GResponse) : List GPart :=
  ((resp.candidates.head?.bind (fun c => c.content)).map
    (fun c => c.parts)).getD []

/-- Truthiness of `p?.inlineData?.data` for the `find` predicate. -/
def goodPart (p : GPart) : Bool :=
  match p.inlineData with
  | some d => d.data ≠ ""
  | none => false

/-- The observable pieces of a `json(statusCode, payload)` reply: status
code, `error` field, `image_base64` field. -/
structure JsonResp where
  statusCode : Nat
  errorMsg : Option String
  image_base64 : Option String
deriving DecidableEq, Repr

/-- The serverless `handler`, parameterised by the Gemini response it would
receive; the boolean records whether `ai.models.generateContent` was
reached. -/
def handler (httpMethod : String) (contentTypeHeader : Option String)
    (body : List Char) (resp : GResponse) : JsonResp × Bool :=
  if httpMethod = "OPTIONS" then
    ({ statusCode := 204, errorMsg := none, image_base64 := none }, false)
  else if httpMethod ≠ "POST" then
    ({ statusCode := 405, errorMsg := some "Method not allowed",
       image_base64 := none }, false)
  else
    let contentType := contentTypeHeader.getD ""
    let parsed := parseMultipart body contentType
    match parsed.faceBuffer with
    | none =>
        ({ statusCode := 400, errorMsg := some "Thiếu ảnh chân dung.",
           image_base64 := none }, false)
    | some _ =>
        match (respParts resp).find? goodPart with
        | none =>
            ({ statusCode := 502, errorMsg := some "AI không tạo được ảnh.",
               image_base64 := none }, true)
        | some p =>
            ({ statusCode := 200, errorMsg := none,
               image_base64 := some ((p.inlineData.map (fun d => d.data)).getD "") },
             true)

/-! Part: Predicates and auxiliary data used by the claim statements -/

/-- The history bounds of the snapshot-list undo stack. -/
def HistInv (s : ComposerState) : Prop :=
  -1 ≤ s.historyIndex ∧ s.historyIndex ≤ (s.history.length : Int) - 1

/-- One invocation of any state operation the hook exposes. -/
inductive CStep : ComposerState → ComposerState → Prop where
  | addL (s : ComposerState) (layer : Layer) (newId : String) :
      CStep s (addLayerS s layer newId)
  | addText (s : ComposerState) (newId : String) :
      CStep s (handleAddTextS s newId)
  | addImage (s : ComposerState) (url : String) (natW natH : ℚ) (newId : String) :
      CStep s (handleAddImageS s url natW natH newId)
  | updL (s : ComposerState) (updates : List (String × LayerPatch)) (final : Bool) :
      CStep s (updateLayersS s updates final)
  | layerUpd (s : ComposerState) (id : String) (p : LayerPatch) (final : Bool) :
      CStep s (handleLayerUpdateS s id p final)
  | layerDel (s : ComposerState) (id : String) :
      CStep s (handleLayerDeleteS s id)
  | delSel (s : ComposerState) : CStep s (deleteSelectedLayersS s)
  | reorder (s : ComposerState) (ls : List Layer) :
      CStep s (handleLayersReorderS s ls)
  | dupL (s : ComposerState) (id newId : String) :
      CStep s (duplicateLayerS s id newId)
  | dupSel (s : ComposerState) (supply : Nat → String) :
      CStep s (duplicateSelectedLayersS s supply)
  | dupDrag (s : ComposerState) (supply : Nat → String) :
      CStep s (handleDuplicateForDragS s supply)
  | resize (s : ComposerState) (dim : Bool) (v : ℚ) :
      CStep s (handleResizeSelectedLayersS s dim v)
  | multi (s : ComposerState) (a : MultiLayerAction) :
      CStep s (handleMultiLayerActionS s a)
  | undo (s : ComposerState) : CStep s (handleUndoS s)
  | redo (s : ComposerState) : CStep s (handleRedoS s)
  | createNew (s : ComposerState) : CStep s (handleCreateNewS s)
  | closeReset (s : ComposerState) : CStep s (handleCloseAndResetS s)
  | setL (s : ComposerState) (ls : List Layer) : CStep s (setLayersS s ls)
  | setSel (s : ComposerState) (ids : List String) :
      CStep s (setSelectedLayerIdsS s ids)

/-- States reachable from the initial hook state. -/
inductive ReachableC : ComposerState → Prop where
  | init : ReachableC initialComposerState
  | step {s s2 : ComposerState} : ReachableC s → CStep s s2 → ReachableC s2

/-- The operations that record a history snapshot, with the data each call
carries. -/
inductive RecOp where
  | add (layer : Layer) (newId : String)
  | del (id : String)
  | delSelected
  | reorder (ls : List Layer)
  | dup (id newId : String)
  | dupSelected (supply : Nat → String)
  | updFinal (updates : List (String × LayerPatch))

/-- Run a recording operation. -/
def applyRecOp (op : RecOp) (s : ComposerState) : ComposerState :=
  match op with
  | .add layer newId => addLayerS s layer newId
  | .del id => handleLayerDeleteS s id
  | .delSelected => deleteSelectedLayersS s
  | .reorder ls => handleLayersReorderS s ls
  | .dup id newId => duplicateLayerS s id newId
  | .dupSelected supply => duplicateSelectedLayersS s supply
  | .updFinal updates => updateLayersS s updates true

/-- When the operation actually reaches `pushHistory` (the early-return and
throwing paths record nothing). -/
def recOpRecords (op : RecOp) (s : ComposerState) : Prop :=
  match op with
  | .delSelected => ¬ s.selectedLayerIds.isEmpty
  | .dup id _ => (s.layers.find? (fun l => l.id = id)).isSome
  | .dupSelected _ => selLayers s ≠ []
  | _ => True

/-- The post-state touches each layer's record only at `x`, and leaves
non-selected layers entirely alone. -/
def FrameX (s s2 : ComposerState) : Prop :=
  s2.layers.length = s.layers.length ∧
  ∀ (i : Nat) (l l2 : Layer), s.layers[i]? = some l → s2.layers[i]? = some l2 →
    (∃ q, l2 = { l with x := q }) ∧ (l.id ∉ s.selectedLayerIds → l2 = l)

/-- The post-state touches each layer's record only at `y`, and leaves
non-selected layers entirely alone. -/
def FrameY (s s2 : ComposerState) : Prop :=
  s2.layers.length = s.layers.length ∧
  ∀ (i : Nat) (l l2 : Layer), s.layers[i]? = some l → s2.layers[i]? = some l2 →
    (∃ q, l2 = { l with y := q }) ∧ (l.id ∉ s.selectedLayerIds → l2 = l)

/-- The claim C8 reads the whole response: some candidate has a part with
truthy `inlineData.data`. -/
def responseHasImagePart (resp : GResponse) : Prop :=
  ∃ c ∈ resp.candidates, ∃ gc ∈ c.content, ∃ p ∈ gc.parts, goodPart p

/-- A plain square image layer used in concrete instances. -/
def wLayer (i : String) (px py : ℚ) : Layer :=
  { id := i, type := "image", url := some "u", x := px, y := py,
    width := 10, height := 10, rotation := 0, opacity := 100 }

/-- Fresh state holding one recorded snapshot equal to its layers. -/
def stateC1 : ComposerState :=
  { layers := [wLayer "a" 0 0], history := [[], [wLayer "a" 0 0]],
    historyIndex := 1, selectedLayerIds := [] }

/-- Two selected layers at x = 5 and x = 1. -/
def stateC4 : ComposerState :=
  { layers := [wLayer "a" 5 0, wLayer "b" 1 0], history := [],
    historyIndex := -1, selectedLayerIds := ["a", "b"] }

/-- Three selected layers at x = 0, 10, 4. -/
def stateC5 : ComposerState :=
  { layers := [wLayer "a" 0 0, wLayer "b" 10 0, wLayer "c" 4 0], history := [],
    historyIndex := -1, selectedLayerIds := ["a", "b", "c"] }

/-- The empty `localStorage`. -/
def emptyStore : Store := fun _ => none

/-- A multipart content type with boundary `X`. -/
def faceCT : String := "multipart/form-data; boundary=X"

/-- A multipart body with exactly one part, named `face`, content `DATA`. -/
def faceBody : List Char :=
  ("--X\r\nContent-Disposition: form-data; name=\"face\"\r\n\r\nDATA\r\n--X--").data

/-- An empty Gemini response. -/
def respEmpty : GResponse := { candidates := [] }

/-- A response whose first candidate has no content but whose second
candidate carries an image part. -/
def respTwoCandidates : GResponse :=
  { candidates :=
      [ { content := none },
        { content := some { parts := [ { inlineData := some { data := "img" } } ] } } ] }

/-- A response whose single candidate carries an image part. -/
def respOneImage : GResponse :=
  { candidates :=
      [ { content := some { parts := [ { inlineData := some { data := "img" } } ] } } ] }

/-! Part: Theorems -/

theorem recordSnapshot_eq (s : ComposerState) (nl : List Layer) (sel : List String) :
    recordSnapshot s nl sel
      = { s with layers := nl, selectedLayerIds := sel,
                 history := s.history.take (s.historyIndex + 1).toNat ++ [nl],
                 historyIndex :=
                   ((s.history.take (s.historyIndex + 1).toNat ++ [nl]).length : Int) - 1 } :=
  rfl

theorem recordSnapshot_layers (s : ComposerState) (nl : List Layer) (sel : List String) :
    (recordSnapshot s nl sel).layers = nl := rfl

theorem histInv_pushHistory (s : ComposerState) (nl : List Layer) :
    HistInv (pushHistory s nl) := by
  unfold HistInv pushHistory
  refine ⟨?_, le_refl _⟩
  simp only [List.length_append, List.length_singleton]
  omega

theorem histInv_recordSnapshot (s : ComposerState) (nl : List Layer) (sel : List String) :
    HistInv (recordSnapshot s nl sel) :=
  histInv_pushHistory _ _

theorem histInv_updateLayersS (s : ComposerState)
    (u : List (String × LayerPatch)) (final : Bool) (h : HistInv s) :
    HistInv (updateLayersS s u final) := by
  unfold updateLayersS
  split
  · exact histInv_recordSnapshot _ _ _
  · exact h

theorem histInv_deleteSelectedLayersS (s : ComposerState) (h : HistInv s) :
    HistInv (deleteSelectedLayersS s) := by
  unfold deleteSelectedLayersS
  split
  · exact h
  · exact histInv_recordSnapshot _ _ _

theorem histInv_duplicateSelectedLayersS (s : ComposerState)
    (supply : Nat → String) (h : HistInv s) :
    HistInv (duplicateSelectedLayersS s supply) := by
  unfold duplicateSelectedLayersS
  split
  · exact h
  · exact histInv_recordSnapshot _ _ _

theorem histInv_handleUndoS (s : ComposerState) (h : HistInv s) :
    HistInv (handleUndoS s) := by
  obtain ⟨h1, h2⟩ := h
  unfold handleUndoS
  split
  · rename_i hc
    simp only [canUndo, decide_eq_true_eq] at hc
    constructor
    · show -1 ≤ s.historyIndex - 1
      omega
    · show s.historyIndex - 1 ≤ (s.history.length : Int) - 1
      omega
  · exact ⟨h1, h2⟩

theorem histInv_handleRedoS (s : ComposerState) (h : HistInv s) :
    HistInv (handleRedoS s) := by
  obtain ⟨h1, h2⟩ := h
  unfold handleRedoS
  split
  · rename_i hc
    simp only [canRedo, decide_eq_true_eq] at hc
    constructor
    · show -1 ≤ s.historyIndex + 1
      omega
    · show s.historyIndex + 1 ≤ (s.history.length : Int) - 1
      omega
  · exact ⟨h1, h2⟩

theorem histInv_multi (s : ComposerState) (a : MultiLayerAction) (h : HistInv s) :
    HistInv (handleMultiLayerActionS s a) := by
  unfold handleMultiLayerActionS
  split
  · exact h
  · cases a
    case mergeA => exact h
    case exportA => exact h
    case deleteA => exact histInv_deleteSelectedLayersS _ h
    case duplicateA supply => exact histInv_duplicateSelectedLayersS _ supply h
    all_goals
      · dsimp only
        split
        · exact h
        · exact histInv_updateLayersS _ _ _ h

theorem histInv_step {s s2 : ComposerState} (h : HistInv s) (st : CStep s s2) :
    HistInv s2 := by
  cases st with
  | addL layer newId => exact histInv_recordSnapshot _ _ _
  | addText newId => exact histInv_recordSnapshot _ _ _
  | addImage url natW natH newId => exact histInv_recordSnapshot _ _ _
  | updL updates final => exact histInv_updateLayersS _ _ _ h
  | layerUpd id p final => exact histInv_updateLayersS _ _ _ h
  | layerDel id => exact histInv_recordSnapshot _ _ _
  | delSel => exact histInv_deleteSelectedLayersS _ h
  | reorder ls => exact histInv_recordSnapshot _ _ _
  | dupL id newId =>
      unfold duplicateLayerS
      split
      · exact h
      · exact histInv_recordSnapshot _ _ _
  | dupSel supply => exact histInv_duplicateSelectedLayersS _ supply h
  | dupDrag supply =>
      unfold handleDuplicateForDragS
      split
      · exact h
      · exact h
  | resize dim v =>
      unfold handleResizeSelectedLayersS
      split
      · exact h
      · exact histInv_updateLayersS _ _ _ h
  | multi a => exact histInv_multi _ a h
  | undo => exact histInv_handleUndoS _ h
  | redo => exact histInv_handleRedoS _ h
  | createNew => exact ⟨le_refl _, by norm_num [handleCreateNewS]⟩
  | closeReset => exact ⟨le_refl _, by norm_num [handleCloseAndResetS]⟩
  | setL ls => exact h
  | setSel ids => exact h

theorem reachable_histInv : ∀ s : ComposerState, ReachableC s → HistInv s := by
  intro s h
  induction h with
  | init => exact ⟨le_refl _, by norm_num [initialComposerState]⟩
  | step _ st ih => exact histInv_step ih st

theorem recOp_factors (op : RecOp) (s : ComposerState) (h : recOpRecords op s) :
    ∃ nl sel, applyRecOp op s = recordSnapshot s nl sel := by
  cases op with
  | add layer newId => exact ⟨_, _, rfl⟩
  | del id => exact ⟨_, _, rfl⟩
  | delSelected =>
      unfold applyRecOp deleteSelectedLayersS
      rw [if_neg h]
      exact ⟨_, _, rfl⟩
  | reorder ls => exact ⟨_, _, rfl⟩
  | dup id newId =>
      obtain ⟨layer, hfind⟩ := Option.isSome_iff_exists.mp h
      simp only [applyRecOp, duplicateLayerS]
      rw [hfind]
      exact ⟨_, _, rfl⟩
  | dupSelected supply =>
      cases hsel : selLayers s with
      | nil => exact absurd hsel h
      | cons first rest =>
          unfold applyRecOp duplicateSelectedLayersS
          rw [hsel]
          exact ⟨_, _, rfl⟩
  | updFinal updates => exact ⟨_, _, rfl⟩

/-- Claim C2: in every reachable composer state `-1 ≤ historyIndex ≤
history.length - 1`; `pushHistory` discards the snapshots after the current
index and appends the new one; and immediately after any history-recording
operation `historyIndex = history.length - 1`, so `canRedo` is false. -/
theorem C2_snapshot_stack_invariant :
    (∀ s : ComposerState, ReachableC s →
        -1 ≤ s.historyIndex ∧ s.historyIndex ≤ (s.history.length : Int) - 1)
    ∧ (∀ (s : ComposerState) (nl : List Layer),
        (pushHistory s nl).history
            = s.history.take (s.historyIndex + 1).toNat ++ [nl]
          ∧ (pushHistory s nl).historyIndex
            = ((pushHistory s nl).history.length : Int) - 1)
    ∧ (∀ (s : ComposerState) (op : RecOp), recOpRecords op s →
        (applyRecOp op s).historyIndex
            = ((applyRecOp op s).history.length : Int) - 1
          ∧ canRedo (applyRecOp op s) = false) := by
  refine ⟨reachable_histInv, fun s nl => ⟨rfl, rfl⟩, fun s op h => ?_⟩
  obtain ⟨nl, sel, heq⟩ := recOp_factors op s h
  rw [heq]
  refine ⟨rfl, ?_⟩
  unfold canRedo recordSnapshot pushHistory
  simp

/-- A C2 instance: the bounds hold at the initial state, and a
`handleLayersReorder` call leaves the index on the last snapshot with
`canRedo` false. -/
theorem C2_witness :
    (-1 ≤ initialComposerState.historyIndex
      ∧ initialComposerState.historyIndex
          ≤ (initialComposerState.history.length : Int) - 1)
    ∧ (applyRecOp (.reorder []) stateC4).historyIndex
        = ((applyRecOp (.reorder []) stateC4).history.length : Int) - 1
    ∧ canRedo (applyRecOp (.reorder []) stateC4) = false := by
  refine ⟨C2_snapshot_stack_invariant.1 initialComposerState ReachableC.init, ?_, ?_⟩
  · exact (C2_snapshot_stack_invariant.2.2 stateC4 (.reorder []) trivial).1
  · exact (C2_snapshot_stack_invariant.2.2 stateC4 (.reorder []) trivial).2

theorem handleUndoS_pos {s : ComposerState} (h : 0 < s.historyIndex) :
    handleUndoS s
      = { s with historyIndex := s.historyIndex - 1,
                 layers := s.history.getD (s.historyIndex - 1).toNat [],
                 selectedLayerIds := [] } := by
  unfold handleUndoS
  rw [if_pos (by simp [canUndo]; exact h)]

theorem handleRedoS_pos {s : ComposerState}
    (h : s.historyIndex < (s.history.length : Int) - 1) :
    handleRedoS s
      = { s with historyIndex := s.historyIndex + 1,
                 layers := s.history.getD (s.historyIndex + 1).toNat [],
                 selectedLayerIds := [] } := by
  unfold handleRedoS
  rw [if_pos (by simp [canRedo]; exact h)]

theorem undo_redo_record (s : ComposerState) (nl : List Layer) (sel : List String)
    (h0 : 0 ≤ s.historyIndex)
    (hget : s.history[s.historyIndex.toNat]? = some s.layers) :
    (handleUndoS (recordSnapshot s nl sel)).layers = s.layers ∧
    (handleRedoS (handleUndoS (recordSnapshot s nl sel))).layers = nl := by
  set k := s.historyIndex.toNat with hkdef
  have hklen : k < s.history.length := by
    by_contra hc
    push_neg at hc
    rw [List.getElem?_eq_none hc] at hget
    exact Option.noConfusion hget
  set T := recordSnapshot s nl sel with hT
  have htoNat : (s.historyIndex + 1).toNat = k + 1 := by omega
  have hlenTake : (s.history.take (k + 1)).length = k + 1 := by
    simp only [List.length_take]
    omega
  have hhist : T.history = s.history.take (k + 1) ++ [nl] := by
    rw [hT, recordSnapshot_eq]
    simp only [htoNat]
  have hhlen : T.history.length = k + 2 := by
    rw [hhist]
    simp [hlenTake]
  have hidx : T.historyIndex = (k : Int) + 1 := by
    rw [hT, recordSnapshot_eq]
    simp only [htoNat, List.length_append, List.length_singleton, hlenTake]
    push_cast
    ring
  have hg1 : T.history[k]? = some s.layers := by
    rw [hhist, List.getElem?_append_left (by omega), List.getElem?_take,
      if_pos (Nat.lt_succ_self k)]
    exact hget
  have hg2 : T.history[k + 1]? = some nl := by
    rw [hhist, List.getElem?_append_right (by omega)]
    simp [hlenTake]
  have e1 : T.historyIndex - 1 = (k : Int) := by rw [hidx]; ring
  have e2 : (T.historyIndex - 1).toNat = k := by rw [e1]; omega
  have hu : handleUndoS T
      = { T with historyIndex := (k : Int), layers := s.layers,
                 selectedLayerIds := [] } := by
    rw [handleUndoS_pos (by rw [hidx]; omega)]
    rw [e2, e1, List.getD_eq_getElem?_getD, hg1]
    rfl
  have hulayers : (handleUndoS T).layers = s.layers := by rw [hu]
  have huidx : (handleUndoS T).historyIndex = (k : Int) := by rw [hu]
  have huhist : (handleUndoS T).history = T.history := by rw [hu]
  have hr : (handleRedoS (handleUndoS T)).layers = nl := by
    rw [handleRedoS_pos (by rw [huidx, huhist, hhlen]; push_cast; omega)]
    show (handleUndoS T).history.getD ((handleUndoS T).historyIndex + 1).toNat [] = nl
    have e3 : ((handleUndoS T).historyIndex + 1).toNat = k + 1 := by
      rw [huidx]; omega
    rw [e3, huhist, List.getD_eq_getElem?_getD, hg2]
    rfl
  exact ⟨hulayers, hr⟩

/-- Claim C1 (amended): provided at least one snapshot is already recorded and
the current layers array equals the snapshot at `historyIndex`
(`0 ≤ historyIndex` and `history[historyIndex] = layers`), every
history-recording operation is undone by `handleUndo` — layers return to
their pre-operation value — and `handleRedo` then restores the
post-operation layers. -/
theorem C1_undo_redo_round_trip (s : ComposerState) (op : RecOp)
    (h0 : 0 ≤ s.historyIndex)
    (hget : s.history[s.historyIndex.toNat]? = some s.layers)
    (hrec : recOpRecords op s) :
    (handleUndoS (applyRecOp op s)).layers = s.layers ∧
    (handleRedoS (handleUndoS (applyRecOp op s))).layers
      = (applyRecOp op s).layers := by
  obtain ⟨nl, sel, heq⟩ := recOp_factors op s hrec
  rw [heq]
  obtain ⟨h1, h2⟩ := undo_redo_record s nl sel h0 hget
  exact ⟨h1, by rw [h2, recordSnapshot_layers]⟩

/-- A C1 instance: from a state holding a recorded snapshot equal to its
layers, adding a layer is undone and redone exactly. -/
theorem C1_witness :
    (handleUndoS (applyRecOp (.add (wLayer "b" 3 3) "b") stateC1)).layers
        = stateC1.layers ∧
    (handleRedoS (handleUndoS (applyRecOp (.add (wLayer "b" 3 3) "b") stateC1))).layers
        = (applyRecOp (.add (wLayer "b" 3 3) "b") stateC1).layers :=
  C1_undo_redo_round_trip stateC1 (.add (wLayer "b" 3 3) "b")
    (by norm_num [stateC1]) (by rfl) trivial

/-- Claim C1 as stated is false: on a fresh canvas (no snapshot recorded yet) the
first `addLayer` pushes the only snapshot, `canUndo` stays false, and
`handleUndo` does not restore the pre-operation (empty) layers array. -/
theorem C1_counterexample :
    ¬ (handleUndoS (applyRecOp (.add (wLayer "a" 0 0) "a")
          initialComposerState)).layers
        = initialComposerState.layers := by
  decide

theorem foldl_min_mem (vs : List ℚ) (v : ℚ) : vs.foldl min v ∈ v :: vs := by
  induction vs generalizing v with
  | nil => simp
  | cons w vs ih =>
      rw [List.foldl_cons]
      rcases List.mem_cons.mp (ih (min v w)) with h1 | h1
      · rcases min_choice v w with hm | hm
        · rw [h1, hm]; exact List.mem_cons_self _ _
        · rw [h1, hm]; exact List.mem_cons_of_mem _ (List.mem_cons_self _ _)
      · exact List.mem_cons_of_mem _ (List.mem_cons_of_mem _ h1)

theorem foldl_min_le (vs : List ℚ) (v : ℚ) : ∀ u ∈ v :: vs, vs.foldl min v ≤ u := by
  induction vs generalizing v with
  | nil =>
      intro u hu
      simp only [List.mem_singleton] at hu
      simp [hu]
  | cons w vs ih =>
      intro u hu
      rw [List.foldl_cons]
      rcases List.mem_cons.mp hu with h1 | h1
      · calc vs.foldl min (min v w) ≤ min v w :=
              ih (min v w) (min v w) (List.mem_cons_self _ _)
          _ ≤ v := min_le_left _ _
          _ = u := h1.symm
      · rcases List.mem_cons.mp h1 with h2 | h2
        · calc vs.foldl min (min v w) ≤ min v w :=
                ih (min v w) (min v w) (List.mem_cons_self _ _)
            _ ≤ w := min_le_right _ _
            _ = u := h2.symm
        · exact ih (min v w) u (List.mem_cons_of_mem _ h2)

theorem foldl_max_mem (vs : List ℚ) (v : ℚ) : vs.foldl max v ∈ v :: vs := by
  induction vs generalizing v with
  | nil => simp
  | cons w vs ih =>
      rw [List.foldl_cons]
      rcases List.mem_cons.mp (ih (max v w)) with h1 | h1
      · rcases max_choice v w with hm | hm
        · rw [h1, hm]; exact List.mem_cons_self _ _
        · rw [h1, hm]; exact List.mem_cons_of_mem _ (List.mem_cons_self _ _)
      · exact List.mem_cons_of_mem _ (List.mem_cons_of_mem _ h1)

theorem le_foldl_max (vs : List ℚ) (v : ℚ) : ∀ u ∈ v :: vs, u ≤ vs.foldl max v := by
  induction vs generalizing v with
  | nil =>
      intro u hu
      simp only [List.mem_singleton] at hu
      simp [hu]
  | cons w vs ih =>
      intro u hu
      rw [List.foldl_cons]
      rcases List.mem_cons.mp hu with h1 | h1
      · calc u = v := h1
          _ ≤ max v w := le_max_left _ _
          _ ≤ vs.foldl max (max v w) :=
              ih (max v w) (max v w) (List.mem_cons_self _ _)
      · rcases List.mem_cons.mp h1 with h2 | h2
        · calc u = w := h2
            _ ≤ max v w := le_max_right _ _
            _ ≤ vs.foldl max (max v w) :=
                ih (max v w) (max v w) (List.mem_cons_self _ _)
        · exact ih (max v w) u (List.mem_cons_of_mem _ h2)

theorem qMin_mem {xs : List ℚ} (h : xs ≠ []) : qMin xs ∈ xs := by
  cases xs with
  | nil => exact absurd rfl h
  | cons v vs => exact foldl_min_mem vs v

theorem qMin_le {xs : List ℚ} : ∀ u ∈ xs, qMin xs ≤ u := by
  cases xs with
  | nil => intro u hu; exact absurd hu (List.not_mem_nil u)
  | cons v vs => exact foldl_min_le vs v

theorem qMax_mem {xs : List ℚ} (h : xs ≠ []) : qMax xs ∈ xs := by
  cases xs with
  | nil => exact absurd rfl h
  | cons v vs => exact foldl_max_mem vs v

theorem le_qMax {xs : List ℚ} : ∀ u ∈ xs, u ≤ qMax xs := by
  cases xs with
  | nil => intro u hu; exact absurd hu (List.not_mem_nil u)
  | cons v vs => exact le_foldl_max vs v

theorem updateLayersS_layers (s : ComposerState)
    (u : List (String × LayerPatch)) (final : Bool) :
    (updateLayersS s u final).layers
      = s.layers.map (fun l =>
          match u.find? (fun p => p.1 = l.id) with
          | some p => applyPatch l p.2
          | none => l) := by
  unfold updateLayersS
  split <;> rfl

theorem hmla_lt2 {s : ComposerState} (a : MultiLayerAction)
    (h : (selLayers s).length < 2) : handleMultiLayerActionS s a = s := by
  unfold handleMultiLayerActionS
  rw [if_pos h]

theorem hmla_alignLeft {s : ComposerState} (h : ¬ (selLayers s).length < 2) :
    handleMultiLayerActionS s .alignLeft
      = if (mlaUpdates s .alignLeft).isEmpty then s
        else updateLayersS s (mlaUpdates s .alignLeft) true := by
  unfold handleMultiLayerActionS
  rw [if_neg h]

theorem hmla_alignCenter {s : ComposerState} (h : ¬ (selLayers s).length < 2) :
    handleMultiLayerActionS s .alignCenter
      = if (mlaUpdates s .alignCenter).isEmpty then s
        else updateLayersS s (mlaUpdates s .alignCenter) true := by
  unfold handleMultiLayerActionS
  rw [if_neg h]

theorem hmla_alignRight {s : ComposerState} (h : ¬ (selLayers s).length < 2) :
    handleMultiLayerActionS s .alignRight
      = if (mlaUpdates s .alignRight).isEmpty then s
        else updateLayersS s (mlaUpdates s .alignRight) true := by
  unfold handleMultiLayerActionS
  rw [if_neg h]

theorem hmla_alignTop {s : ComposerState} (h : ¬ (selLayers s).length < 2) :
    handleMultiLayerActionS s .alignTop
      = if (mlaUpdates s .alignTop).isEmpty then s
        else updateLayersS s (mlaUpdates s .alignTop) true := by
  unfold handleMultiLayerActionS
  rw [if_neg h]

theorem hmla_alignMiddle {s : ComposerState} (h : ¬ (selLayers s).length < 2) :
    handleMultiLayerActionS s .alignMiddle
      = if (mlaUpdates s .alignMiddle).isEmpty then s
        else updateLayersS s (mlaUpdates s .alignMiddle) true := by
  unfold handleMultiLayerActionS
  rw [if_neg h]

theorem hmla_alignBottom {s : ComposerState} (h : ¬ (selLayers s).length < 2) :
    handleMultiLayerActionS s .alignBottom
      = if (mlaUpdates s .alignBottom).isEmpty then s
        else updateLayersS s (mlaUpdates s .alignBottom) true := by
  unfold handleMultiLayerActionS
  rw [if_neg h]

theorem hmla_distH {s : ComposerState} (h : ¬ (selLayers s).length < 2) :
    handleMultiLayerActionS s .distributeHorizontal
      = if (mlaUpdates s .distributeHorizontal).isEmpty then s
        else updateLayersS s (mlaUpdates s .distributeHorizontal) true := by
  unfold handleMultiLayerActionS
  rw [if_neg h]

theorem selLayers_id_mem {s : ComposerState} {l : Layer} (h : l ∈ selLayers s) :
    l.id ∈ s.selectedLayerIds := by
  unfold selLayers at h
  have := (List.mem_filter.mp h).2
  simpa using this

theorem selLayers_sub {s : ComposerState} {l : Layer} (h : l ∈ selLayers s) :
    l ∈ s.layers := by
  unfold selLayers at h
  exact (List.mem_filter.mp h).1

theorem applyPatch_patchX (l : Layer) (q : ℚ) :
    applyPatch l (patchX q) = { l with x := q } := rfl

theorem applyPatch_patchY (l : Layer) (q : ℚ) :
    applyPatch l (patchY q) = { l with y := q } := rfl

theorem frameX_refl (s : ComposerState) : FrameX s s := by
  refine ⟨rfl, fun i l l2 hl hl2 => ?_⟩
  rw [hl] at hl2
  cases hl2
  exact ⟨⟨l.x, rfl⟩, fun _ => rfl⟩

theorem frameY_refl (s : ComposerState) : FrameY s s := by
  refine ⟨rfl, fun i l l2 hl hl2 => ?_⟩
  rw [hl] at hl2
  cases hl2
  exact ⟨⟨l.y, rfl⟩, fun _ => rfl⟩

theorem frameX_updateLayers (s : ComposerState)
    (u : List (String × LayerPatch))
    (hshape : ∀ p ∈ u, ∃ q, p.2 = patchX q)
    (hids : ∀ p ∈ u, p.1 ∈ s.selectedLayerIds) :
    FrameX s (updateLayersS s u true) := by
  constructor
  · rw [updateLayersS_layers]
    exact List.length_map _ _
  · intro i l l2 hl hl2
    rw [updateLayersS_layers, List.getElem?_map, hl, Option.map_some'] at hl2
    cases hl2
    cases hfind : u.find? (fun p => p.1 = l.id) with
    | none =>
        exact ⟨⟨l.x, rfl⟩, fun _ => rfl⟩
    | some p =>
        have hp := List.mem_of_find?_eq_some hfind
        obtain ⟨q, hq⟩ := hshape p hp
        refine ⟨⟨q, by dsimp only; rw [hq, applyPatch_patchX]⟩, fun hnot => ?_⟩
        have hpred := List.find?_some hfind
        simp only [decide_eq_true_eq] at hpred
        exact absurd (hpred ▸ hids p hp) hnot

theorem frameY_updateLayers (s : ComposerState)
    (u : List (String × LayerPatch))
    (hshape : ∀ p ∈ u, ∃ q, p.2 = patchY q)
    (hids : ∀ p ∈ u, p.1 ∈ s.selectedLayerIds) :
    FrameY s (updateLayersS s u true) := by
  constructor
  · rw [updateLayersS_layers]
    exact List.length_map _ _
  · intro i l l2 hl hl2
    rw [updateLayersS_layers, List.getElem?_map, hl, Option.map_some'] at hl2
    cases hl2
    cases hfind : u.find? (fun p => p.1 = l.id) with
    | none =>
        exact ⟨⟨l.y, rfl⟩, fun _ => rfl⟩
    | some p =>
        have hp := List.mem_of_find?_eq_some hfind
        obtain ⟨q, hq⟩ := hshape p hp
        refine ⟨⟨q, by dsimp only; rw [hq, applyPatch_patchY]⟩, fun hnot => ?_⟩
        have hpred := List.find?_some hfind
        simp only [decide_eq_true_eq] at hpred
        exact absurd (hpred ▸ hids p hp) hnot

theorem mem_map_patchX {sel : List Layer} {f : Layer → ℚ} {p : String × LayerPatch}
    (hp : p ∈ sel.map (fun l => (l.id, patchX (f l)))) :
    ∃ l ∈ sel, p = (l.id, patchX (f l)) := by
  obtain ⟨l, hl, he⟩ := List.mem_map.mp hp
  exact ⟨l, hl, he.symm⟩

theorem mem_map_patchY {sel : List Layer} {f : Layer → ℚ} {p : String × LayerPatch}
    (hp : p ∈ sel.map (fun l => (l.id, patchY (f l)))) :
    ∃ l ∈ sel, p = (l.id, patchY (f l)) := by
  obtain ⟨l, hl, he⟩ := List.mem_map.mp hp
  exact ⟨l, hl, he.symm⟩

theorem frameX_action {s : ComposerState} {a : MultiLayerAction}
    (hrun : ¬ (selLayers s).length < 2 →
      handleMultiLayerActionS s a
        = if (mlaUpdates s a).isEmpty then s
          else updateLayersS s (mlaUpdates s a) true)
    (hup : ∀ p ∈ mlaUpdates s a,
      (∃ q, p.2 = patchX q) ∧ p.1 ∈ s.selectedLayerIds) :
    FrameX s (handleMultiLayerActionS s a) := by
  by_cases h2 : (selLayers s).length < 2
  · rw [hmla_lt2 _ h2]
    exact frameX_refl s
  · rw [hrun h2]
    split
    · exact frameX_refl s
    · exact frameX_updateLayers s _ (fun p hp => (hup p hp).1)
        (fun p hp => (hup p hp).2)

theorem frameY_action {s : ComposerState} {a : MultiLayerAction}
    (hrun : ¬ (selLayers s).length < 2 →
      handleMultiLayerActionS s a
        = if (mlaUpdates s a).isEmpty then s
          else updateLayersS s (mlaUpdates s a) true)
    (hup : ∀ p ∈ mlaUpdates s a,
      (∃ q, p.2 = patchY q) ∧ p.1 ∈ s.selectedLayerIds) :
    FrameY s (handleMultiLayerActionS s a) := by
  by_cases h2 : (selLayers s).length < 2
  · rw [hmla_lt2 _ h2]
    exact frameY_refl s
  · rw [hrun h2]
    split
    · exact frameY_refl s
    · exact frameY_updateLayers s _ (fun p hp => (hup p hp).1)
        (fun p hp => (hup p hp).2)

theorem updates_alignLeft_shape (s : ComposerState) :
    ∀ p ∈ mlaUpdates s .alignLeft,
      (∃ q, p.2 = patchX q) ∧ p.1 ∈ s.selectedLayerIds := by
  intro p hp
  simp only [mlaUpdates] at hp
  obtain ⟨l, hl, he⟩ := List.mem_map.mp hp
  cases he
  exact ⟨⟨_, rfl⟩, selLayers_id_mem hl⟩

theorem updates_alignCenter_shape (s : ComposerState) :
    ∀ p ∈ mlaUpdates s .alignCenter,
      (∃ q, p.2 = patchX q) ∧ p.1 ∈ s.selectedLayerIds := by
  intro p hp
  simp only [mlaUpdates] at hp
  cases hsb : selectionBoundingBox s with
  | none => rw [hsb] at hp; exact absurd hp (List.not_mem_nil p)
  | some bb =>
      rw [hsb] at hp
      obtain ⟨l, hl, he⟩ := List.mem_map.mp hp
      cases he
      exact ⟨⟨_, rfl⟩, selLayers_id_mem hl⟩

theorem updates_alignRight_shape (s : ComposerState) :
    ∀ p ∈ mlaUpdates s .alignRight,
      (∃ q, p.2 = patchX q) ∧ p.1 ∈ s.selectedLayerIds := by
  intro p hp
  simp only [mlaUpdates] at hp
  cases hsb : selectionBoundingBox s with
  | none => rw [hsb] at hp; exact absurd hp (List.not_mem_nil p)
  | some bb =>
      rw [hsb] at hp
      obtain ⟨l, hl, he⟩ := List.mem_map.mp hp
      cases he
      exact ⟨⟨_, rfl⟩, selLayers_id_mem hl⟩

theorem updates_alignTop_shape (s : ComposerState) :
    ∀ p ∈ mlaUpdates s .alignTop,
      (∃ q, p.2 = patchY q) ∧ p.1 ∈ s.selectedLayerIds := by
  intro p hp
  simp only [mlaUpdates] at hp
  obtain ⟨l, hl, he⟩ := List.mem_map.mp hp
  cases he
  exact ⟨⟨_, rfl⟩, selLayers_id_mem hl⟩

theorem updates_alignMiddle_shape (s : ComposerState) :
    ∀ p ∈ mlaUpdates s .alignMiddle,
      (∃ q, p.2 = patchY q) ∧ p.1 ∈ s.selectedLayerIds := by
  intro p hp
  simp only [mlaUpdates] at hp
  cases hsb : selectionBoundingBox s with
  | none => rw [hsb] at hp; exact absurd hp (List.not_mem_nil p)
  | some bb =>
      rw [hsb] at hp
      obtain ⟨l, hl, he⟩ := List.mem_map.mp hp
      cases he
      exact ⟨⟨_, rfl⟩, selLayers_id_mem hl⟩

theorem updates_alignBottom_shape (s : ComposerState) :
    ∀ p ∈ mlaUpdates s .alignBottom,
      (∃ q, p.2 = patchY q) ∧ p.1 ∈ s.selectedLayerIds := by
  intro p hp
  simp only [mlaUpdates] at hp
  cases hsb : selectionBoundingBox s with
  | none => rw [hsb] at hp; exact absurd hp (List.not_mem_nil p)
  | some bb =>
      rw [hsb] at hp
      obtain ⟨l, hl, he⟩ := List.mem_map.mp hp
      cases he
      exact ⟨⟨_, rfl⟩, selLayers_id_mem hl⟩

/-- Claim C6: every align action modifies only the aligned coordinate (`x` for
the left/center/right aligns, `y` for top/middle/bottom) of the selected
layers, leaves every other layer field intact and leaves non-selected
layers entirely unchanged; and `updateLayers` leaves every layer whose id
is not in the update list unchanged. -/
theorem C6_alignment_frame_condition (s : ComposerState) :
    (FrameX s (handleMultiLayerActionS s .alignLeft)
      ∧ FrameX s (handleMultiLayerActionS s .alignCenter)
      ∧ FrameX s (handleMultiLayerActionS s .alignRight))
    ∧ (FrameY s (handleMultiLayerActionS s .alignTop)
      ∧ FrameY s (handleMultiLayerActionS s .alignMiddle)
      ∧ FrameY s (handleMultiLayerActionS s .alignBottom))
    ∧ (∀ (u : List (String × LayerPatch)) (final : Bool) (i : Nat) (l l2 : Layer),
        s.layers[i]? = some l →
        (updateLayersS s u final).layers[i]? = some l2 →
        l.id ∉ u.map Prod.fst → l2 = l) := by
  refine ⟨⟨?_, ?_, ?_⟩, ⟨?_, ?_, ?_⟩, ?_⟩
  · exact frameX_action (fun h => hmla_alignLeft h) (updates_alignLeft_shape s)
  · exact frameX_action (fun h => hmla_alignCenter h) (updates_alignCenter_shape s)
  · exact frameX_action (fun h => hmla_alignRight h) (updates_alignRight_shape s)
  · exact frameY_action (fun h => hmla_alignTop h) (updates_alignTop_shape s)
  · exact frameY_action (fun h => hmla_alignMiddle h) (updates_alignMiddle_shape s)
  · exact frameY_action (fun h => hmla_alignBottom h) (updates_alignBottom_shape s)
  · intro u final i l l2 hl hl2 hmem
    rw [updateLayersS_layers, List.getElem?_map, hl, Option.map_some'] at hl2
    cases hl2
    have hnone : u.find? (fun p => p.1 = l.id) = none := by
      rw [List.find?_eq_none]
      intro x hx
      simp only [decide_eq_true_eq]
      intro he
      exact hmem (he ▸ List.mem_map_of_mem Prod.fst hx)
    rw [hnone]

/-- A C6 instance: aligning two concrete selected layers left satisfies the
x-only frame condition, and a concrete `updateLayers` call with an unknown
id leaves the first layer unchanged. -/
theorem C6_witness :
    FrameX stateC4 (handleMultiLayerActionS stateC4 .alignLeft)
    ∧ wLayer "a" 5 0 = wLayer "a" 5 0 := by
  constructor
  · exact (C6_alignment_frame_condition stateC4).1.1
  · exact (C6_alignment_frame_condition stateC4).2.2 [("zzz", patchX 7)] true 0
      (wLayer "a" 5 0) (wLayer "a" 5 0) rfl (by decide) (by decide)

/-- Claim C4: with at least two selected layers, `align-left` sets the `x` of
every selected layer to the minimum pre-action `x` among the selected
layers (which is a member of and a lower bound of those `x` values); with
fewer than two selected layers the action changes nothing. -/
theorem C4_align_left_postcondition (s : ComposerState) :
    (2 ≤ (selLayers s).length →
      (handleMultiLayerActionS s .alignLeft).layers
          = s.layers.map (fun l =>
              if s.selectedLayerIds.contains l.id
              then { l with x := qMin ((selLayers s).map (fun l2 => l2.x)) }
              else l)
        ∧ qMin ((selLayers s).map (fun l2 => l2.x))
            ∈ (selLayers s).map (fun l2 => l2.x)
        ∧ ∀ v ∈ (selLayers s).map (fun l2 => l2.x),
            qMin ((selLayers s).map (fun l2 => l2.x)) ≤ v)
    ∧ ((selLayers s).length < 2 → handleMultiLayerActionS s .alignLeft = s) := by
  constructor
  · intro h2
    have hne : selLayers s ≠ [] := by
      intro he
      rw [he] at h2
      exact absurd h2 (by norm_num)
    refine ⟨?_, qMin_mem (by simpa using hne), fun v hv => qMin_le v hv⟩
    rw [hmla_alignLeft (by omega)]
    have hupd : mlaUpdates s .alignLeft
        = (selLayers s).map
            (fun l => (l.id, patchX (qMin ((selLayers s).map (fun l2 => l2.x))))) := by
      simp only [mlaUpdates]
    have hne2 : ¬ (mlaUpdates s .alignLeft).isEmpty := by
      rw [hupd, List.isEmpty_iff]
      intro he
      exact hne (List.map_eq_nil_iff.mp he)
    rw [if_neg hne2, updateLayersS_layers]
    apply List.map_congr_left
    intro l hl
    by_cases hc : s.selectedLayerIds.contains l.id
    · rw [if_pos hc]
      have hmem : l ∈ selLayers s := by
        unfold selLayers
        rw [List.mem_filter]
        exact ⟨hl, hc⟩
      have hsome : ((mlaUpdates s .alignLeft).find?
          (fun p => p.1 = l.id)).isSome := by
        rw [List.find?_isSome]
        refine ⟨(l.id, patchX (qMin ((selLayers s).map (fun l2 => l2.x)))), ?_, by simp⟩
        rw [hupd]
        exact List.mem_map_of_mem _ hmem
      obtain ⟨p, hp⟩ := Option.isSome_iff_exists.mp hsome
      rw [hp]
      have hpmem := List.mem_of_find?_eq_some hp
      rw [hupd] at hpmem
      obtain ⟨l3, _, he⟩ := List.mem_map.mp hpmem
      cases he
      exact applyPatch_patchX l _
    · rw [if_neg hc]
      have hnone : (mlaUpdates s .alignLeft).find? (fun p => p.1 = l.id) = none := by
        rw [List.find?_eq_none]
        intro x hx
        rw [hupd] at hx
        obtain ⟨l3, hl3, he⟩ := List.mem_map.mp hx
        cases he
        simp only [decide_eq_true_eq]
        intro he2
        apply hc
        have := selLayers_id_mem hl3
        rw [he2] at this
        simpa using this
      rw [hnone]
  · exact fun h => hmla_lt2 _ h

/-- A C4 instance: two selected layers at x = 5 and x = 1 both end at
x = 1. -/
theorem C4_witness :
    (handleMultiLayerActionS stateC4 .alignLeft).layers
        = stateC4.layers.map (fun l =>
            if stateC4.selectedLayerIds.contains l.id
            then { l with x := qMin ((selLayers stateC4).map (fun l2 => l2.x)) }
            else l)
      ∧ qMin ((selLayers stateC4).map (fun l2 => l2.x))
          ∈ (selLayers stateC4).map (fun l2 => l2.x)
      ∧ ∀ v ∈ (selLayers stateC4).map (fun l2 => l2.x),
          qMin ((selLayers stateC4).map (fun l2 => l2.x)) ≤ v :=
  (C4_align_left_postcondition stateC4).1 (by decide)

theorem getLastD_mem : ∀ {l : List Layer} (e : Layer), l ≠ [] → l.getLastD e ∈ l := by
  intro l
  induction l with
  | nil => intro e h; exact absurd rfl h
  | cons a t ih =>
      intro e _
      rw [List.getLastD_cons]
      cases t with
      | nil => simp [List.getLastD]
      | cons c t2 => exact List.mem_cons_of_mem _ (ih a (by simp))

theorem sorted_le_lastD : ∀ {l : List Layer} (e : Layer),
    List.Sorted (fun a b => a.x ≤ b.x) l → ∀ b ∈ l, b.x ≤ (l.getLastD e).x := by
  intro l
  induction l with
  | nil => intro e _ b hb; exact absurd hb (List.not_mem_nil b)
  | cons a t ih =>
      intro e hs b hb
      rw [List.sorted_cons] at hs
      rw [List.getLastD_cons]
      rcases List.mem_cons.mp hb with h1 | h1
      · cases t with
        | nil => rw [h1]; exact le_refl _
        | cons c t2 =>
            rw [h1]
            exact hs.1 _ (getLastD_mem a (by simp))
      · exact ih a hs.2 b h1

theorem sortByX_perm (sel : List Layer) : (sortByX sel).Perm sel :=
  List.perm_insertionSort _ _

theorem sortByX_sorted (sel : List Layer) :
    List.Sorted (fun a b => a.x ≤ b.x) (sortByX sel) :=
  List.sorted_insertionSort _ _

theorem sortByX_length (sel : List Layer) : (sortByX sel).length = sel.length :=
  (sortByX_perm sel).length_eq

theorem sortByX_ne_nil {sel : List Layer} (hne : sel ≠ []) : sortByX sel ≠ [] := by
  intro he
  have := sortByX_length sel
  rw [he] at this
  exact hne (List.length_eq_zero.mp this.symm)

theorem sortByX_headD_eq_qMin (sel : List Layer) (hne : sel ≠ []) :
    ((sortByX sel).headD dummyLayer).x = qMin (sel.map (fun l => l.x)) := by
  have hperm := sortByX_perm sel
  have hsorted := sortByX_sorted sel
  cases hsort : sortByX sel with
  | nil => exact absurd hsort (sortByX_ne_nil hne)
  | cons a t =>
      rw [hsort] at hperm hsorted
      rw [List.sorted_cons] at hsorted
      show a.x = qMin (sel.map (fun l => l.x))
      apply le_antisymm
      · obtain ⟨l, hl, he⟩ := List.mem_map.mp
          (qMin_mem (by
            intro he
            exact hne (List.map_eq_nil_iff.mp he)))
        have hls : l ∈ a :: t := hperm.mem_iff.mpr hl
        rcases List.mem_cons.mp hls with h1 | h1
        · rw [← he, ← h1]
        · rw [← he]
          exact hsorted.1 l h1
      · apply qMin_le
        exact List.mem_map_of_mem _ (hperm.mem_iff.mp (List.mem_cons_self a t))

theorem sortByX_getLastD_eq_qMax (sel : List Layer) (hne : sel ≠ []) :
    ((sortByX sel).getLastD dummyLayer).x = qMax (sel.map (fun l => l.x)) := by
  have hperm := sortByX_perm sel
  have hsorted := sortByX_sorted sel
  apply le_antisymm
  · apply le_qMax
    exact List.mem_map_of_mem _
      (hperm.mem_iff.mp (getLastD_mem dummyLayer (sortByX_ne_nil hne)))
  · obtain ⟨l, hl, he⟩ := List.mem_map.mp
      (qMax_mem (by
        intro he
        exact hne (List.map_eq_nil_iff.mp he)))
    rw [← he]
    exact sorted_le_lastD dummyLayer hsorted l (hperm.mem_iff.mpr hl)

theorem find_enumFrom_rank (x0 gap : ℚ) :
    ∀ (l : List Layer) (k i : Nat) (h : i < l.length),
      (l.map (fun l2 => l2.id)).Nodup →
      ((l.enumFrom k).map
          (fun p => (p.2.id, patchX (x0 + gap * (p.1 : ℚ))))).find?
          (fun u => u.1 = (l.get ⟨i, h⟩).id)
        = some ((l.get ⟨i, h⟩).id, patchX (x0 + gap * ((k + i : Nat) : ℚ))) := by
  intro l
  induction l with
  | nil => intro k i h hnd; exact absurd h (Nat.not_lt_zero i)
  | cons a t ih =>
      intro k i h hnd
      rw [List.map_cons, List.nodup_cons] at hnd
      rw [List.enumFrom_cons, List.map_cons]
      cases i with
      | zero =>
          rw [List.find?_cons_of_pos _ (by simp)]
          simp
      | succ j =>
          have hj : j < t.length := by simpa using h
          have hget : (a :: t).get ⟨j + 1, h⟩ = t.get ⟨j, hj⟩ := rfl
          rw [hget]
          rw [List.find?_cons_of_neg]
          · have harith : k + 1 + j = k + (j + 1) := by omega
            have := ih (k + 1) j hj hnd.2
            rw [harith] at this
            exact this
          · simp only [decide_eq_true_eq]
            intro he
            apply hnd.1
            rw [he]
            exact List.mem_map_of_mem _ (t.get_mem j hj)

theorem mlaUpdates_distH_eq (s : ComposerState)
    (h3 : 2 < (sortByX (selLayers s)).length) :
    mlaUpdates s .distributeHorizontal
      = ((sortByX (selLayers s)).enumFrom 0).map
          (fun p => (p.2.id, patchX
            (((sortByX (selLayers s)).headD dummyLayer).x
              + (((sortByX (selLayers s)).getLastD dummyLayer).x
                  - ((sortByX (selLayers s)).headD dummyLayer).x)
                / (((sortByX (selLayers s)).length : ℚ) - 1) * (p.1 : ℚ)))) := by
  simp only [mlaUpdates]
  rw [if_pos h3]
  rfl

/-- Claim C5: with `n > 2` selected layers, `distribute-horizontal` sorts the
selected layers by ascending `x` (a stable sort, hence a sorted permutation
of the selection) and assigns the i-th layer in that order the x coordinate
`x_min + i * (x_max - x_min) / (n - 1)`, where `x_min`/`x_max` are the
smallest/largest pre-action `x` of the selection, so the extreme layers
keep their coordinates (the rank-`n-1` expression equals `x_max`); with
exactly two selected layers the action changes nothing. -/
theorem C5_distribute_horizontal_postcondition (s : ComposerState) :
    (3 ≤ (selLayers s).length → (s.layers.map (fun l => l.id)).Nodup →
      List.Sorted (fun a b => a.x ≤ b.x) (sortByX (selLayers s))
      ∧ (sortByX (selLayers s)).Perm (selLayers s)
      ∧ (∀ (i : Nat) (h : i < (sortByX (selLayers s)).length),
          ∃ l2 ∈ (handleMultiLayerActionS s .distributeHorizontal).layers,
            l2 = { (sortByX (selLayers s)).get ⟨i, h⟩ with
                     x := qMin ((selLayers s).map (fun l => l.x))
                       + (qMax ((selLayers s).map (fun l => l.x))
                           - qMin ((selLayers s).map (fun l => l.x)))
                         / (((selLayers s).length : ℚ) - 1) * (i : ℚ) })
      ∧ qMin ((selLayers s).map (fun l => l.x))
          + (qMax ((selLayers s).map (fun l => l.x))
              - qMin ((selLayers s).map (fun l => l.x)))
            / (((selLayers s).length : ℚ) - 1)
            * (((selLayers s).length : ℚ) - 1)
        = qMax ((selLayers s).map (fun l => l.x)))
    ∧ ((selLayers s).length = 2 →
        handleMultiLayerActionS s .distributeHorizontal = s) := by
  constructor
  · intro h3 hnd
    have hne : selLayers s ≠ [] := by
      intro he
      rw [he] at h3
      exact absurd h3 (by norm_num)
    have hlen := sortByX_length (selLayers s)
    have hx0 := sortByX_headD_eq_qMin (selLayers s) hne
    have hxN := sortByX_getLastD_eq_qMax (selLayers s) hne
    have hcast : ((selLayers s).length : ℚ) - 1 ≠ 0 := by
      have h3q : (3 : ℚ) ≤ ((selLayers s).length : ℚ) := by exact_mod_cast h3
      intro he
      rw [sub_eq_zero] at he
      rw [he] at h3q
      norm_num at h3q
    refine ⟨sortByX_sorted _, sortByX_perm _, ?_, by rw [div_mul_cancel₀ _ hcast]; ring⟩
    intro i h
    have hsl3 : 2 < (sortByX (selLayers s)).length := by omega
    have hnodupSel : ((selLayers s).map (fun l => l.id)).Nodup :=
      ((List.filter_sublist s.layers).map (fun l => l.id)).nodup hnd
    have hnodupSorted : ((sortByX (selLayers s)).map (fun l => l.id)).Nodup :=
      (((sortByX_perm (selLayers s)).map (fun l => l.id)).nodup_iff).mpr hnodupSel
    have hmm : (sortByX (selLayers s)).get ⟨i, h⟩ ∈ s.layers :=
      selLayers_sub ((sortByX_perm (selLayers s)).mem_iff.mp
        ((sortByX (selLayers s)).get_mem i h))
    have hupdne : ¬ (mlaUpdates s .distributeHorizontal).isEmpty := by
      intro hemp
      rw [List.isEmpty_iff, mlaUpdates_distH_eq s hsl3] at hemp
      have hl0 := congrArg List.length hemp
      simp only [List.length_map, List.enumFrom_length, List.length_nil] at hl0
      omega
    rw [hmla_distH (by omega), if_neg hupdne, updateLayersS_layers]
    refine ⟨_, List.mem_map_of_mem _ hmm, ?_⟩
    dsimp only
    rw [mlaUpdates_distH_eq s hsl3]
    rw [find_enumFrom_rank _ _ (sortByX (selLayers s)) 0 i h hnodupSorted]
    dsimp only
    rw [applyPatch_patchX]
    have hv : ((sortByX (selLayers s)).headD dummyLayer).x
        + (((sortByX (selLayers s)).getLastD dummyLayer).x
            - ((sortByX (selLayers s)).headD dummyLayer).x)
          / (((sortByX (selLayers s)).length : ℚ) - 1) * ((0 + i : Nat) : ℚ)
        = qMin ((selLayers s).map (fun l => l.x))
          + (qMax ((selLayers s).map (fun l => l.x))
              - qMin ((selLayers s).map (fun l => l.x)))
            / (((selLayers s).length : ℚ) - 1) * (i : ℚ) := by
      rw [hx0, hxN, hlen]
      norm_num
    rw [hv]
  · intro h2
    have hguard : ¬ (selLayers s).length < 2 := by omega
    rw [hmla_distH hguard]
    have hupd : mlaUpdates s .distributeHorizontal = [] := by
      simp only [mlaUpdates]
      rw [if_neg]
      rw [sortByX_length]
      omega
    rw [hupd]
    rfl

/-- A C5 instance: three selected layers at x = 0, 10, 4 are redistributed
to 0, 5, 10 keeping the extremes. -/
theorem C5_witness :
    List.Sorted (fun a b => a.x ≤ b.x) (sortByX (selLayers stateC5))
    ∧ (sortByX (selLayers stateC5)).Perm (selLayers stateC5)
    ∧ (∀ (i : Nat) (h : i < (sortByX (selLayers stateC5)).length),
        ∃ l2 ∈ (handleMultiLayerActionS stateC5 .distributeHorizontal).layers,
          l2 = { (sortByX (selLayers stateC5)).get ⟨i, h⟩ with
                   x := qMin ((selLayers stateC5).map (fun l => l.x))
                     + (qMax ((selLayers stateC5).map (fun l => l.x))
                         - qMin ((selLayers stateC5).map (fun l => l.x)))
                       / (((selLayers stateC5).length : ℚ) - 1) * (i : ℚ) })
    ∧ qMin ((selLayers stateC5).map (fun l => l.x))
        + (qMax ((selLayers stateC5).map (fun l => l.x))
            - qMin ((selLayers stateC5).map (fun l => l.x)))
          / (((selLayers stateC5).length : ℚ) - 1)
          * (((selLayers stateC5).length : ℚ) - 1)
      = qMax ((selLayers stateC5).map (fun l => l.x)) :=
  (C5_distribute_horizontal_postcondition stateC5).1 (by decide) (by decide)

theorem handleAddImageSize_spec (maxW maxH natW natH : ℚ)
    (hw : 0 < natW) (hh : 0 < natH) :
    (handleAddImageSize maxW maxH natW natH).1 ≤ maxW
    ∧ (handleAddImageSize maxW maxH natW natH).2 ≤ maxH
    ∧ ((natW > maxW ∨ natH > maxH) →
        (handleAddImageSize maxW maxH natW natH).1 * natH
          = (handleAddImageSize maxW maxH natW natH).2 * natW) := by
  have hr : 0 < natW / natH := div_pos hw hh
  unfold handleAddImageSize
  dsimp only
  split_ifs with c1 c2 c3 c4
  · refine ⟨?_, le_refl _, fun _ => ?_⟩
    · exact le_of_lt ((lt_div_iff₀ hr).mp c3)
    · show maxH * (natW / natH) * natH = maxH * natW
      field_simp
  · refine ⟨le_refl _, not_lt.mp c3, fun _ => ?_⟩
    show maxW * natH = maxW / (natW / natH) * natW
    rw [div_div_eq_mul_div, div_mul_cancel₀ _ (ne_of_gt hw)]
  · refine ⟨?_, le_refl _, fun _ => ?_⟩
    · have h5 : maxH * (natW / natH) < natW := by
        rw [← mul_div_assoc, div_lt_iff₀ hh]
        nlinarith
      exact le_of_lt (lt_of_lt_of_le h5 (not_lt.mp c2))
    · show maxH * (natW / natH) * natH = maxH * natW
      field_simp
  · rcases c1 with h | h
    · exact absurd h c2
    · exact absurd h c4
  · push_neg at c1
    exact ⟨c1.1, c1.2, fun hc =>
      hc.elim (fun h => absurd h (not_lt.mpr c1.1))
        (fun h => absurd h (not_lt.mpr c1.2))⟩

/-- Claim C9 (implicit): every image layer created through `handleAddImage` is at
most half the canvas in each dimension, keeps the source aspect ratio
whenever the source exceeded either bound, and is centred on the canvas. -/
theorem C9_add_image_clamp (s : ComposerState) (url : String) (natW natH : ℚ)
    (newId : String) (_hW : 0 < s.canvasWidth) (_hH : 0 < s.canvasHeight)
    (hw : 0 < natW) (hh : 0 < natH) :
    ∃ L : Layer,
      (handleAddImageS s url natW natH newId).layers = s.layers ++ [L]
      ∧ L.width ≤ s.canvasWidth / 2
      ∧ L.height ≤ s.canvasHeight / 2
      ∧ ((natW > s.canvasWidth / 2 ∨ natH > s.canvasHeight / 2) →
          L.width * natH = L.height * natW)
      ∧ L.x + L.width / 2 = s.canvasWidth / 2
      ∧ L.y + L.height / 2 = s.canvasHeight / 2 := by
  have hhalfW : s.canvasWidth * (1 / 2) = s.canvasWidth / 2 := by ring
  have hhalfH : s.canvasHeight * (1 / 2) = s.canvasHeight / 2 := by ring
  obtain ⟨b1, b2, b3⟩ := handleAddImageSize_spec (s.canvasWidth * (1 / 2))
    (s.canvasHeight * (1 / 2)) natW natH hw hh
  refine ⟨{ imageLayerFor s.canvasWidth s.canvasHeight natW natH url with
              id := newId }, rfl, ?_, ?_, ?_, ?_, ?_⟩
  · show (handleAddImageSize (s.canvasWidth * (1 / 2)) (s.canvasHeight * (1 / 2))
        natW natH).1 ≤ s.canvasWidth / 2
    rw [← hhalfW]
    exact b1
  · show (handleAddImageSize (s.canvasWidth * (1 / 2)) (s.canvasHeight * (1 / 2))
        natW natH).2 ≤ s.canvasHeight / 2
    rw [← hhalfH]
    exact b2
  · intro hc
    rw [← hhalfW, ← hhalfH] at hc
    exact b3 hc
  · show (s.canvasWidth
        - (handleAddImageSize (s.canvasWidth * (1 / 2)) (s.canvasHeight * (1 / 2))
            natW natH).1) / 2
      + (handleAddImageSize (s.canvasWidth * (1 / 2)) (s.canvasHeight * (1 / 2))
          natW natH).1 / 2
      = s.canvasWidth / 2
    ring
  · show (s.canvasHeight
        - (handleAddImageSize (s.canvasWidth * (1 / 2)) (s.canvasHeight * (1 / 2))
            natW natH).2) / 2
      + (handleAddImageSize (s.canvasWidth * (1 / 2)) (s.canvasHeight * (1 / 2))
          natW natH).2 / 2
      = s.canvasHeight / 2
    ring

/-- A C9 instance: a 2000×500 image on a 1024×1024 canvas becomes 512×128,
centred. -/
theorem C9_witness :
    ∃ L : Layer,
      (handleAddImageS initialComposerState "u" 2000 500 "img").layers
          = initialComposerState.layers ++ [L]
      ∧ L.width ≤ initialComposerState.canvasWidth / 2
      ∧ L.height ≤ initialComposerState.canvasHeight / 2
      ∧ ((2000 > initialComposerState.canvasWidth / 2
            ∨ 500 > initialComposerState.canvasHeight / 2) →
          L.width * 500 = L.height * 2000)
      ∧ L.x + L.width / 2 = initialComposerState.canvasWidth / 2
      ∧ L.y + L.height / 2 = initialComposerState.canvasHeight / 2 :=
  C9_add_image_clamp initialComposerState "u" 2000 500 "img"
    (by norm_num [initialComposerState]) (by norm_num [initialComposerState])
    (by norm_num) (by norm_num)

theorem digitChar_toNat {d : Nat} (h : d < 10) : (digitChar d).toNat = 48 + d := by
  interval_cases d <;> decide

theorem digitChar_isDigit {d : Nat} (h : d < 10) : (digitChar d).isDigit = true := by
  interval_cases d <;> decide

theorem digitChar_not_whitespace {d : Nat} (h : d < 10) :
    (digitChar d).isWhitespace = false := by
  interval_cases d <;> decide

theorem digitChar_ne_minus {d : Nat} (h : d < 10) : digitChar d ≠ '-' := by
  intro he
  have h2 := congrArg Char.toNat he
  rw [digitChar_toNat h, show ('-').toNat = 45 from by decide] at h2
  omega

theorem digitChar_ne_plus {d : Nat} (h : d < 10) : digitChar d ≠ '+' := by
  intro he
  have h2 := congrArg Char.toNat he
  rw [digitChar_toNat h, show ('+').toNat = 43 from by decide] at h2
  omega

theorem natDigitsRev_shape (n : Nat) :
    ∀ c ∈ natDigitsRev n, ∃ d, d < 10 ∧ c = digitChar d := by
  induction n using Nat.strong_induction_on with
  | _ n ih =>
      unfold natDigitsRev
      split
      · rename_i h
        intro c hc
        rw [List.mem_singleton] at hc
        exact ⟨n, h, hc⟩
      · rename_i h
        intro c hc
        rcases List.mem_cons.mp hc with h1 | h1
        · exact ⟨n % 10, Nat.mod_lt n (by omega), h1⟩
        · exact ih (n / 10) (Nat.div_lt_self (by omega) (by omega)) c h1

theorem natDigitsRev_ne_nil (n : Nat) : natDigitsRev n ≠ [] := by
  unfold natDigitsRev
  split <;> simp

theorem digitsToNat_append (ds : List Char) (c : Char) :
    digitsToNat (ds ++ [c]) = 10 * digitsToNat ds + (c.toNat - 48) := by
  unfold digitsToNat
  rw [List.foldl_append]
  rfl

theorem digitsToNat_reverse_natDigitsRev (n : Nat) :
    digitsToNat (natDigitsRev n).reverse = n := by
  induction n using Nat.strong_induction_on with
  | _ n ih =>
      unfold natDigitsRev
      split
      · rename_i h
        show digitsToNat [digitChar n] = n
        unfold digitsToNat
        simp [digitChar_toNat h]
      · rename_i h
        rw [List.reverse_cons, digitsToNat_append,
          ih (n / 10) (Nat.div_lt_self (by omega) (by omega)),
          digitChar_toNat (Nat.mod_lt n (by omega))]
        omega

theorem takeWhile_isDigit_natDigits (n : Nat) :
    ((natDigitsRev n).reverse.takeWhile Char.isDigit) = (natDigitsRev n).reverse := by
  rw [List.takeWhile_eq_self_iff]
  intro c hc
  obtain ⟨d, hd, he⟩ := natDigitsRev_shape n c (List.mem_reverse.mp hc)
  rw [he]
  exact digitChar_isDigit hd

theorem parseIntJs_natToStringJs (n : Nat) :
    parseIntJs (natToStringJs n) = some (n : Int) := by
  unfold parseIntJs natToStringJs
  dsimp only
  cases hrev : (natDigitsRev n).reverse with
  | nil => exact absurd (List.reverse_eq_nil_iff.mp hrev) (natDigitsRev_ne_nil n)
  | cons c rest =>
      obtain ⟨d, hd, he⟩ := natDigitsRev_shape n c
        (List.mem_reverse.mp (hrev ▸ List.mem_cons_self c rest))
      have hws : c.isWhitespace = false := he ▸ digitChar_not_whitespace hd
      rw [List.dropWhile_cons, hws]
      rw [if_neg (by simp : ¬ (false = true))]
      dsimp only
      rw [if_neg (he ▸ digitChar_ne_minus hd), if_neg (he ▸ digitChar_ne_plus hd)]
      have htake : parseDigitRun (c :: rest) = some n := by
        rw [← hrev]
        unfold parseDigitRun
        rw [takeWhile_isDigit_natDigits]
        rw [if_neg (by rw [hrev]; simp)]
        rw [digitsToNat_reverse_natDigitsRev]
      rw [htake]
      rfl

theorem intToStringJs_nonneg {i : Int} (h : 0 ≤ i) :
    intToStringJs i = natToStringJs i.toNat := by
  unfold intToStringJs
  rw [if_neg (not_lt.mpr h)]

theorem parseIntJs_intToStringJs {i : Int} (h : 0 ≤ i) :
    parseIntJs (intToStringJs i) = some i := by
  rw [intToStringJs_nonneg h, parseIntJs_natToStringJs, Int.toNat_of_nonneg h]

theorem natToStringJs_ne_empty (n : Nat) : natToStringJs n ≠ "" := by
  intro he
  have : (natToStringJs n).data = [] := by rw [he]
  unfold natToStringJs at this
  rw [List.reverse_eq_nil_iff] at this
  exact natDigitsRev_ne_nil n this

theorem intToStringJs_nonneg_ne_empty {i : Int} (h : 0 ≤ i) :
    intToStringJs i ≠ "" := by
  rw [intToStringJs_nonneg h]
  exact natToStringJs_ne_empty _

theorem setItem_self (st : Store) (k v : String) : setItem st k v k = some v := by
  unfold setItem
  rw [if_pos rfl]

/-- Claim C7: `decreaseUserCredits` returns `max(c - 1, 0)` for the credit value
`c` that `getUserCredits` would return beforehand, never returns a negative
number, stores exactly the returned number under
`caotrang_credits_<username>`, and an immediately following
`getUserCredits` reads back exactly that value. -/
theorem C7_decrease_credits (st : Store) (u : String) :
    (CreditsLib.decreaseUserCredits st u).1
        = max ((CreditsLib.getUserCredits st u).1 - 1) 0
    ∧ 0 ≤ (CreditsLib.decreaseUserCredits st u).1
    ∧ (CreditsLib.decreaseUserCredits st u).2 (creditsKey u)
        = some (intToStringJs (CreditsLib.decreaseUserCredits st u).1)
    ∧ (CreditsLib.getUserCredits (CreditsLib.decreaseUserCredits st u).2 u).1
        = (CreditsLib.decreaseUserCredits st u).1 := by
  have h1 : (CreditsLib.decreaseUserCredits st u).1
      = max ((CreditsLib.getUserCredits st u).1 - 1) 0 := rfl
  have h0 : (0 : Int) ≤ (CreditsLib.decreaseUserCredits st u).1 := by
    rw [h1]
    exact le_max_right _ _
  have hkey : (CreditsLib.decreaseUserCredits st u).2 (creditsKey u)
      = some (intToStringJs (CreditsLib.decreaseUserCredits st u).1) :=
    setItem_self _ _ _
  refine ⟨h1, h0, hkey, ?_⟩
  unfold CreditsLib.getUserCredits
  rw [hkey]
  dsimp only
  rw [if_neg (intToStringJs_nonneg_ne_empty h0)]
  rw [parseIntJs_intToStringJs h0]

theorem getMaxCredits_default {st : Store} {u : String}
    (hrole : st "caotrang_role" = none)
    (hbase : st (baseCreditsKey u) = none) :
    CreditsLib.getMaxCredits st u = 5 := by
  unfold CreditsLib.getMaxCredits CreditsLib.getUserRole
  rw [hbase, hrole]
  rfl

/-- Claim C10 (implicit): for a user with no `caotrang_role` entry and no
`caotrang_base_credits_<u>` entry, the older credit module and
`src/lib/credits.ts` agree on `getUserCredits`, `decreaseUserCredits` and
`resetUserCredits` (return values and stored values alike);
`getUserCredits` initializes an absent, empty or non-numeric stored value
to 5 and returns the parsed stored integer otherwise. -/
theorem C10_credit_modules_equiv (st : Store) (u : String)
    (hrole : st "caotrang_role" = none)
    (hbase : st (baseCreditsKey u) = none) :
    CreditsLib.getUserCredits st u = CreditsOld.getUserCredits st u
    ∧ CreditsLib.decreaseUserCredits st u = CreditsOld.decreaseUserCredits st u
    ∧ (∀ v : Option Int,
        CreditsLib.resetUserCredits st u v = CreditsOld.resetUserCredits st u v)
    ∧ (st (creditsKey u) = none →
        CreditsLib.getUserCredits st u
          = (5, setItem st (creditsKey u) (intToStringJs 5)))
    ∧ (∀ s2, st (creditsKey u) = some s2 → s2 ≠ "" →
        ∀ v, parseIntJs s2 = some v → CreditsLib.getUserCredits st u = (v, st)) := by
  have hmax := getMaxCredits_default hrole hbase
  have hget : CreditsLib.getUserCredits st u = CreditsOld.getUserCredits st u := by
    unfold CreditsLib.getUserCredits CreditsOld.getUserCredits
    rw [hmax]
    cases hst : st (creditsKey u) with
    | none => rfl
    | some s2 =>
        dsimp only
        by_cases hse : s2 = ""
        · rw [if_pos hse, if_pos hse]
        · rw [if_neg hse, if_neg hse]
          cases parseIntJs s2 with
          | none => rfl
          | some v => rfl
  refine ⟨hget, ?_, ?_, ?_, ?_⟩
  · unfold CreditsLib.decreaseUserCredits CreditsOld.decreaseUserCredits
    rw [hget]
  · intro v
    unfold CreditsLib.resetUserCredits CreditsOld.resetUserCredits
    cases v with
    | none => rw [hmax]; rfl
    | some w => rfl
  · intro hnone
    unfold CreditsLib.getUserCredits
    rw [hnone, hmax]
  · intro s2 hsome hse v hv
    unfold CreditsLib.getUserCredits
    rw [hsome]
    dsimp only
    rw [if_neg hse, hv]

/-- A C10 instance: on the empty store both modules initialize to 5 and
decrement to 4, with identical stored state. -/
theorem C10_witness :
    CreditsLib.getUserCredits emptyStore "alice"
        = CreditsOld.getUserCredits emptyStore "alice"
    ∧ CreditsLib.decreaseUserCredits emptyStore "alice"
        = CreditsOld.decreaseUserCredits emptyStore "alice" :=
  ⟨(C10_credit_modules_equiv emptyStore "alice" rfl rfl).1,
   (C10_credit_modules_equiv emptyStore "alice" rfl rfl).2.1⟩

theorem accumPart_face_none (r : ParsedBody) (pb : List Char)
    (hr : r.faceBuffer = none)
    (hnf : ∀ headerEndIndex, bufIndexOf pb doubleCRLF 0 = some headerEndIndex →
      (findNameAttr (pb.take headerEndIndex)).getD "" ≠ "face") :
    (accumPart r pb).faceBuffer = none := by
  unfold accumPart
  cases hh : bufIndexOf pb doubleCRLF 0 with
  | none => exact hr
  | some he2 =>
      dsimp only
      rw [if_neg (hnf he2 hh)]
      split_ifs <;> exact hr

theorem partsLoop_face_none (body bb : List Char) :
    ∀ (fuel lastIndex : Nat) (r : ParsedBody), r.faceBuffer = none →
      (∀ p ∈ partsLoop body bb lastIndex fuel, p.1 ≠ "face") →
      (parseLoop body bb lastIndex r fuel).faceBuffer = none := by
  intro fuel
  induction fuel with
  | zero => intro lastIndex r hr _; exact hr
  | succ fuel ih =>
      intro lastIndex r hr hparts
      cases hidx : bufIndexOf body bb lastIndex with
      | none => simp only [parseLoop, hidx]; exact hr
      | some startIndex =>
          cases hidx2 : bufIndexOf body bb (startIndex + bb.length + 2) with
          | none => simp only [parseLoop, hidx, hidx2]; exact hr
          | some nextBoundaryIndex =>
              simp only [parseLoop, hidx, hidx2]
              apply ih
              · apply accumPart_face_none _ _ hr
                intro he2 hh
                refine hparts
                  ((findNameAttr ((bufSlice body (startIndex + bb.length + 2)
                      (nextBoundaryIndex - 2)).take he2)).getD "",
                    (bufSlice body (startIndex + bb.length + 2)
                      (nextBoundaryIndex - 2)).drop (he2 + 4)) ?_
                simp only [partsLoop, hidx, hidx2, hh]
                exact List.mem_append_left _ (List.mem_singleton.mpr rfl)
              · intro p hp
                apply hparts
                simp only [partsLoop, hidx, hidx2]
                exact List.mem_append_right _ hp

theorem extractedParts_no_face (body : List Char) (ct : String)
    (h : ∀ p ∈ extractedParts body ct, p.1 ≠ "face") :
    (parseMultipart body ct).faceBuffer = none := by
  unfold parseMultipart
  unfold extractedParts at h
  cases hb : findBoundary ct.data with
  | none => rfl
  | some b =>
      rw [hb] at h
      exact partsLoop_face_none body _ _ 0 defaultParsedBody rfl h

/-- Claim C3: a POST whose multipart body has no part named `face` — including
every request whose Content-Type carries no boundary parameter, for which
`parseMultipart` returns all defaults — is answered with status 400 and
error `Thiếu ảnh chân dung.`, and the image-generation API is not
reached. -/
theorem C3_missing_face_rejection (ctHeader : Option String) (body : List Char)
    (resp : GResponse) :
    ((∀ p ∈ extractedParts body (ctHeader.getD ""), p.1 ≠ "face") →
      handler "POST" ctHeader body resp
        = ({ statusCode := 400, errorMsg := some "Thiếu ảnh chân dung.",
             image_base64 := none }, false))
    ∧ (∀ ct2 : String, findBoundary ct2.data = none →
        parseMultipart body ct2 = defaultParsedBody) := by
  constructor
  · intro hnoface
    have hface := extractedParts_no_face body (ctHeader.getD "") hnoface
    unfold handler
    rw [if_neg (by decide : ¬ ("POST" = "OPTIONS"))]
    rw [if_neg (by simp : ¬ ("POST" ≠ "POST"))]
    dsimp only
    rw [hface]
  · intro ct2 hb
    unfold parseMultipart
    rw [hb]

/-- A C3 instance: a POST with empty headers and body is rejected with 400
without an API call. -/
theorem C3_witness :
    handler "POST" none [] respEmpty
      = ({ statusCode := 400, errorMsg := some "Thiếu ảnh chân dung.",
           image_base64 := none }, false) :=
  (C3_missing_face_rejection none [] respEmpty).1 (by decide)

/-- Claim C8 (amended): for a POST carrying a face image, if the **first
candidate** of the Gemini response has no content part with a non-empty
`inlineData.data`, the handler returns 502 with `AI không tạo được ảnh.`;
if such a part exists, it returns 200 with the first such part's data as
`image_base64`. -/
theorem C8_image_response_handling (ctHeader : Option String) (body : List Char)
    (resp : GResponse) (fb : List Char)
    (hface : (parseMultipart body (ctHeader.getD "")).faceBuffer = some fb) :
    ((∀ p ∈ respParts resp, goodPart p = false) →
      handler "POST" ctHeader body resp
        = ({ statusCode := 502, errorMsg := some "AI không tạo được ảnh.",
             image_base64 := none }, true))
    ∧ (∀ (p : GPart) (d : InlineData),
        (respParts resp).find? goodPart = some p → p.inlineData = some d →
        handler "POST" ctHeader body resp
          = ({ statusCode := 200, errorMsg := none,
               image_base64 := some d.data }, true)) := by
  constructor
  · intro hnone
    have hfind : (respParts resp).find? goodPart = none := by
      rw [List.find?_eq_none]
      intro p hp
      rw [hnone p hp]
      simp
    unfold handler
    rw [if_neg (by decide : ¬ ("POST" = "OPTIONS"))]
    rw [if_neg (by simp : ¬ ("POST" ≠ "POST"))]
    dsimp only
    rw [hface]
    dsimp only
    rw [hfind]
  · intro p d hfind hd
    unfold handler
    rw [if_neg (by decide : ¬ ("POST" = "OPTIONS"))]
    rw [if_neg (by simp : ¬ ("POST" ≠ "POST"))]
    dsimp only
    rw [hface]
    dsimp only
    rw [hfind]
    dsimp only
    rw [hd]
    rfl

/-- A C8 instance: for a concrete face-carrying POST and a single-candidate
response holding an image part, the handler returns 200 with that data. -/
theorem C8_witness :
    handler "POST" (some faceCT) faceBody respOneImage
      = ({ statusCode := 200, errorMsg := none, image_base64 := some "img" },
         true) := by
  have h := (C8_image_response_handling (some faceCT) faceBody respOneImage
      ("DATA".data) (by decide)).2
  exact h { inlineData := some { data := "img" } } { data := "img" }
    (by decide) rfl

/-- Claim C8 as stated is false: the code inspects only `candidates[0]`. For a
response whose first candidate has no content but whose second candidate
carries an image part — a response that does contain a candidate part with
non-empty `inlineData.data` — the handler returns 502, not 200. -/
theorem C8_counterexample :
    responseHasImagePart respTwoCandidates
    ∧ (parseMultipart faceBody faceCT).faceBuffer.isSome = true
    ∧ (handler "POST" (some faceCT) faceBody respTwoCandidates).1.statusCode
        = 502 := by
  refine ⟨?_, by decide, by decide⟩
  refine ⟨{ content := some { parts := [{ inlineData := some { data := "img" } }] } },
    List.mem_cons_of_mem _ (List.mem_cons_self _ _),
    { parts := [{ inlineData := some { data := "img" } }] }, rfl,
    { inlineData := some { data := "img" } }, List.mem_singleton.mpr rfl, ?_⟩
  decide

end Studio
